import Mathlib

/-!
# Sylverant ship server: administrative operations (`src/admin.c`)

A shallow embedding of the seven admin operations of `admin.c`
(`kill_guildcard`, `refresh_quests`/`load_quests`, `refresh_gms`,
`refresh_limits`, `broadcast_message`, `schedule_shutdown`, `global_ban`).

Conventions of the embedding.

* The ship is an explicit value that every operation takes and returns.
* Every call that leaves `admin.c` (locks, packets to clients, the reporting
  callback, shipgate requests, file readers, allocation, frees) is appended to
  a trace of `event`s, in program order.  `debug(...)` logging is not traced.
* What such a call returns is read from a record `Ext` of the things that
  `admin.c` uses and does not define: the privilege tests of `clients.h`,
  constants, and the results of the collaborators.
* A `ship_client_t *` is identified by the field `addr` of the client.
* `__(client, msgid)` is always applied to the recipient of the message; an
  argument built by it is recorded as `fmt_arg.gettext msgid`.
-/

namespace ShipAdmin

/-! ## Data model -/

/-- One argument of a printf-style call. -/
inductive fmt_arg where
  | gettext (msgid : String)
  | str (s : String)
  | u32 (n : Nat)
  deriving DecidableEq, Repr

/-- The fields of `ship_client_t` that `admin.c` reads or writes. `pl` says
whether the player-data pointer is non-null. -/
structure ship_client_t where
  addr : Nat
  guildcard : Nat
  privilege : Nat
  flags : Nat
  pl : Bool
  deriving DecidableEq, Repr

/-- The fields of `block_t` used here: `run` and the client queue, head first. -/
structure block_t where
  run : Bool
  clients : List ship_client_t
  deriving DecidableEq, Repr

/-- One `cfg->limits[i]`. -/
structure limits_cfg_t where
  name : Option String
  filename : String
  enforce : Bool
  deriving DecidableEq, Repr

/-- The fields of `sylverant_ship_t` used here; `limits_count` is the length
of `limits`, and `cfg->blocks` is the length of the block array of the ship. -/
structure sylverant_ship_t where
  name : String
  quests_dir : Option String
  gm_file : Option String
  limits : List limits_cfg_t
  deriving DecidableEq, Repr

/-- A `limits_entry_t`; `limits` is the `sylverant_limits_t *` it holds. -/
structure limits_entry_t where
  name : Option String
  limits : Nat
  deriving DecidableEq, Repr

/-- A `sylverant_quest_list_t`, by value; its content is not inspected here. -/
abbrev sylverant_quest_list_t := Nat

/-- A `quest_map_t` queue, head first; its elements are not inspected here. -/
abbrev quest_map_t := List Nat

/-- The ship. `blocks` is the array `ship->blocks[0 .. cfg->blocks - 1]`, an
entry being `none` for a null pointer. `gm_list` stands for the local GM list
that `gm_list_read` maintains inside the ship. -/
structure ship_t where
  cfg : sylverant_ship_t
  blocks : List (Option block_t)
  all_limits : List limits_entry_t
  def_limits : Option Nat
  qlist : Nat → Nat → sylverant_quest_list_t
  qmap : quest_map_t
  gm_list : Nat

/-- Calls that leave `admin.c`, in the order they are made. -/
inductive event where
  | rwlock_rdlock (block : Nat)
  | rwlock_unlock (block : Nat)
  | mutex_lock (client : Nat)
  | mutex_unlock (client : Nat)
  | send_txt (client : Nat) (fmt : String) (args : List fmt_arg)
  | send_message_box (client : Nat) (fmt : String) (args : List fmt_arg)
  | msgfunc (client : Nat) (fmt : String) (args : List fmt_arg)
  | shipgate_send_kick (requester : Nat) (gc : Nat) (reason : Option String)
  | shipgate_send_ban (type : Nat) (requester : Nat) (gc : Nat) (l : Nat)
      (reason : Option String)
  | sylverant_read_limits (filename : String)
  | malloc_entry (i : Nat)
  | strdup_name (i : Nat)
  | sylverant_free_limits (l : Nat)
  | free_entry (i : Nat)
  | ship_free_limits_ex (q : List limits_entry_t)
  | llock_wrlock
  | llock_unlock
  | sylverant_quests_read (fn : String)
  | quest_map (i : Nat) (j : Nat)
  | sylverant_quests_destroy (q : sylverant_quest_list_t)
  | quest_cleanup (m : quest_map_t)
  | quest_cache_maps (m : quest_map_t) (dir : String)
  | qlock_wrlock
  | qlock_unlock
  | gm_list_read (fn : String)
  | ship_server_shutdown (deadline : Int)
  deriving DecidableEq, Repr

/-- The reporting callback `msgfunc f`: what the call returns. -/
abbrev msgfunc := ship_client_t → String → List fmt_arg → Int

/-- What `admin.c` uses and does not define. The three privilege tests are
the macros of `clients.h` applied to a client; the constants come from other
headers; the remaining fields give the result of each collaborator call.
`stack_qlist i j` is the indeterminate initial content of the local array
cell `qlist[i][j]` of `load_quests`. `sylverant_read_limits i fn` is the
ruleset pointer stored through the out-parameter, `none` when the call
reports failure. -/
structure Ext where
  LOCAL_GM : ship_client_t → Bool
  GLOBAL_GM : ship_client_t → Bool
  LOCAL_ROOT : ship_client_t → Bool
  CLIENT_FLAG_DISCONNECTED : Nat
  SHDR_TYPE_GCBAN : Nat
  CLIENT_VERSION_COUNT : Nat
  CLIENT_LANG_COUNT : Nat
  version_codes : Nat → String
  language_codes : Nat → String
  send_txt : ship_client_t → String → List fmt_arg → Int
  shipgate_send_kick : Nat → Nat → Option String → Int
  shipgate_send_ban : Nat → Nat → Nat → Nat → Option String → Int
  sylverant_read_limits : Nat → String → Option Nat
  malloc_fails : Nat → Bool
  strdup_fails : Nat → Bool
  stack_qlist : Nat → Nat → sylverant_quest_list_t
  sylverant_quests_read : String → sylverant_quest_list_t → Int × sylverant_quest_list_t
  quest_map : quest_map_t → sylverant_quest_list_t → Nat → Nat → Int × quest_map_t
  sylverant_quests_destroy : sylverant_quest_list_t → sylverant_quest_list_t
  gm_list_read : String → Nat → Int × Nat
  time : Int

/-- Process state: the ship and the global `restart_on_shutdown`. -/
structure process where
  ship : ship_t
  restart_on_shutdown : Int

/-- What one operation leaves behind: its return value, the process state and
the calls it made. -/
structure outcome where
  ret : Int
  st : process
  trace : List event

/-- Result of walking one client queue: the queue afterwards, the calls made,
and `some r` when the function returned `r` from inside the loop. -/
structure client_scan where
  clients : List ship_client_t
  trace : List event
  ret : Option Int

/-- Result of walking the block array, as `client_scan`. -/
structure block_scan where
  blocks : List (Option block_t)
  trace : List event
  ret : Option Int

/-! ## kill_guildcard -/

/-- The `TAILQ_FOREACH` of `kill_guildcard` (lines 52-82) over the clients of
block `j`. -/
def kill_guildcard_clients (E : Ext) (c : ship_client_t) (gc : Nat)
    (reason : Option String) (j : Nat) : List ship_client_t → client_scan
  | [] => ⟨[], [], none⟩
  | i :: rest =>
    if i.guildcard = gc then
      if c.privilege ≤ i.privilege then
        ⟨i :: rest,
         [event.mutex_lock i.addr, event.mutex_unlock i.addr, event.rwlock_unlock j,
          event.send_txt c.addr "%s" [fmt_arg.gettext "\tE\tC7Nice try."]],
         some (E.send_txt c "%s" [fmt_arg.gettext "\tE\tC7Nice try."])⟩
      else
        ⟨{ i with flags := i.flags ||| E.CLIENT_FLAG_DISCONNECTED } :: rest,
         [event.mutex_lock i.addr,
          (match reason with
           | some r =>
             event.send_message_box i.addr "%s\n\n%s\n%s"
               [fmt_arg.gettext "\tEYou have been kicked by a GM.",
                fmt_arg.gettext "Reason:", fmt_arg.str r]
           | none =>
             event.send_message_box i.addr "%s"
               [fmt_arg.gettext "\tEYou have been kicked by a GM."]),
          event.mutex_unlock i.addr, event.rwlock_unlock j],
         some 0⟩
    else
      let r := kill_guildcard_clients E c gc reason j rest
      ⟨i :: r.clients,
       event.mutex_lock i.addr :: event.mutex_unlock i.addr :: r.trace,
       r.ret⟩

/-- The block loop of `kill_guildcard` (lines 45-86), from index `j` on. -/
def kill_guildcard_blocks (E : Ext) (c : ship_client_t) (gc : Nat)
    (reason : Option String) : Nat → List (Option block_t) → block_scan
  | _, [] => ⟨[], [], none⟩
  | j, none :: bs =>
    let r := kill_guildcard_blocks E c gc reason (j + 1) bs
    ⟨none :: r.blocks, r.trace, r.ret⟩
  | j, some b :: bs =>
    if b.run then
      let s := kill_guildcard_clients E c gc reason j b.clients
      match s.ret with
      | some v =>
        ⟨some { b with clients := s.clients } :: bs, event.rwlock_rdlock j :: s.trace, some v⟩
      | none =>
        let r := kill_guildcard_blocks E c gc reason (j + 1) bs
        ⟨some { b with clients := s.clients } :: r.blocks,
         event.rwlock_rdlock j :: (s.trace ++ event.rwlock_unlock j :: r.trace),
         r.ret⟩
    else
      let r := kill_guildcard_blocks E c gc reason (j + 1) bs
      ⟨some b :: r.blocks, r.trace, r.ret⟩

/-- The function `kill_guildcard(c, gc, reason)` (lines 33-95). -/
def kill_guildcard (E : Ext) (p : process) (c : ship_client_t) (gc : Nat)
    (reason : Option String) : outcome :=
  if !E.LOCAL_GM c then
    ⟨-1, p, []⟩
  else
    let r := kill_guildcard_blocks E c gc reason 0 p.ship.blocks
    let p1 : process := { p with ship := { p.ship with blocks := r.blocks } }
    match r.ret with
    | some v => ⟨v, p1, r.trace⟩
    | none =>
      if E.GLOBAL_GM c then
        ⟨0, p1, r.trace ++ [event.shipgate_send_kick c.guildcard gc reason]⟩
      else
        ⟨0, p1, r.trace⟩

/-! ## global_ban -/

/-- The `switch(l)` of `global_ban` (lines 421-439): the msgid stored in
`len`, `none` for the null pointer. -/
def global_ban_len (l : Nat) : Option String :=
  if l = 0xFFFFFFFF then some "Forever"
  else if l = 2592000 then some "30 days"
  else if l = 604800 then some "1 week"
  else if l = 86400 then some "1 day"
  else none

/-- The message box of `global_ban` (lines 442-462): format and arguments. -/
def global_ban_notice (reason : Option String) (len : Option String) :
    String × List fmt_arg :=
  match reason, len with
  | some r, some n =>
    ("%s\n%s %s\n%s\n%s",
     [fmt_arg.gettext "\tEYou have been banned by a GM.", fmt_arg.gettext "Ban Length:",
      fmt_arg.gettext n, fmt_arg.gettext "Reason:", fmt_arg.str r])
  | none, some n =>
    ("%s\n%s %s",
     [fmt_arg.gettext "\tEYou have been banned by a GM.", fmt_arg.gettext "Ban Length:",
      fmt_arg.gettext n])
  | some r, none =>
    ("%s\n%s\n%s",
     [fmt_arg.gettext "\tEYou have been banned by a GM.", fmt_arg.gettext "Reason:",
      fmt_arg.str r])
  | none, none =>
    ("%s", [fmt_arg.gettext "\tEYou have been banned by a GM."])

/-- The `TAILQ_FOREACH` of `global_ban` (lines 406-474) over the clients of
block `j`. The mutex of a client is taken only once its guildcard matched;
line 473 unlocks the mutex of every client that did not match. -/
def global_ban_clients (E : Ext) (c : ship_client_t) (gc : Nat) (l : Nat)
    (reason : Option String) (j : Nat) : List ship_client_t → client_scan
  | [] => ⟨[], [], none⟩
  | i :: rest =>
    if i.guildcard = gc then
      if c.privilege ≤ i.privilege then
        ⟨i :: rest,
         [event.mutex_lock i.addr, event.mutex_unlock i.addr, event.rwlock_unlock j,
          event.send_txt c.addr "%s" [fmt_arg.gettext "\tE\tC7Nice try."]],
         some (E.send_txt c "%s" [fmt_arg.gettext "\tE\tC7Nice try."])⟩
      else
        ⟨{ i with flags := i.flags ||| E.CLIENT_FLAG_DISCONNECTED } :: rest,
         [event.mutex_lock i.addr,
          event.send_message_box i.addr (global_ban_notice reason (global_ban_len l)).1
            (global_ban_notice reason (global_ban_len l)).2,
          event.mutex_unlock i.addr, event.rwlock_unlock j],
         some 0⟩
    else
      let r := global_ban_clients E c gc l reason j rest
      ⟨i :: r.clients, event.mutex_unlock i.addr :: r.trace, r.ret⟩

/-- The block loop of `global_ban` (lines 400-478), from index `j` on. -/
def global_ban_blocks (E : Ext) (c : ship_client_t) (gc : Nat) (l : Nat)
    (reason : Option String) : Nat → List (Option block_t) → block_scan
  | _, [] => ⟨[], [], none⟩
  | j, none :: bs =>
    let r := global_ban_blocks E c gc l reason (j + 1) bs
    ⟨none :: r.blocks, r.trace, r.ret⟩
  | j, some b :: bs =>
    if b.run then
      let s := global_ban_clients E c gc l reason j b.clients
      match s.ret with
      | some v =>
        ⟨some { b with clients := s.clients } :: bs, event.rwlock_rdlock j :: s.trace, some v⟩
      | none =>
        let r := global_ban_blocks E c gc l reason (j + 1) bs
        ⟨some { b with clients := s.clients } :: r.blocks,
         event.rwlock_rdlock j :: (s.trace ++ event.rwlock_unlock j :: r.trace),
         r.ret⟩
    else
      let r := global_ban_blocks E c gc l reason (j + 1) bs
      ⟨some b :: r.blocks, r.trace, r.ret⟩

/-- The function `global_ban(c, gc, l, reason)` (lines 381-487). -/
def global_ban (E : Ext) (p : process) (c : ship_client_t) (gc : Nat) (l : Nat)
    (reason : Option String) : outcome :=
  if !E.GLOBAL_GM c then
    ⟨-1, p, []⟩
  else if E.shipgate_send_ban E.SHDR_TYPE_GCBAN c.guildcard gc l reason ≠ 0 then
    ⟨E.send_txt c "%s" [fmt_arg.gettext "\tE\tC7Error setting ban."], p,
     [event.shipgate_send_ban E.SHDR_TYPE_GCBAN c.guildcard gc l reason,
      event.send_txt c.addr "%s" [fmt_arg.gettext "\tE\tC7Error setting ban."]]⟩
  else
    let r := global_ban_blocks E c gc l reason 0 p.ship.blocks
    let p1 : process := { p with ship := { p.ship with blocks := r.blocks } }
    match r.ret with
    | some v =>
      ⟨v, p1, event.shipgate_send_ban E.SHDR_TYPE_GCBAN c.guildcard gc l reason :: r.trace⟩
    | none =>
      if E.GLOBAL_GM c then
        ⟨0, p1,
         event.shipgate_send_ban E.SHDR_TYPE_GCBAN c.guildcard gc l reason ::
           (r.trace ++ [event.shipgate_send_kick c.guildcard gc reason])⟩
      else
        ⟨0, p1, event.shipgate_send_ban E.SHDR_TYPE_GCBAN c.guildcard gc l reason :: r.trace⟩

/-! ## load_quests, refresh_quests -/

/-- The local variables `qlist` and `qmap` of `load_quests` while the quest
files are read, with the calls made so far. -/
structure quest_stage where
  qlist : Nat → Nat → sylverant_quest_list_t
  qmap : quest_map_t
  trace : List event

/-- Assignment to one cell of a quest matrix. -/
def set_cell (m : Nat → Nat → sylverant_quest_list_t) (i j : Nat)
    (v : sylverant_quest_list_t) : Nat → Nat → sylverant_quest_list_t :=
  fun a b => if a = i ∧ b = j then v else m a b

/-- The body of the inner reading loop of `load_quests` (lines 109-121) for
cell `(i, j)`. A failed read is not reported and leaves in the cell what the
reader left there; a failed `quest_map` destroys the list just read. -/
def load_quests_cell (E : Ext) (dir : String) (i j : Nat) (s : quest_stage) : quest_stage :=
  let fn := dir ++ "/" ++ E.version_codes i ++ "-" ++ E.language_codes j ++ "/quests.xml"
  let r := E.sylverant_quests_read fn (s.qlist i j)
  if r.1 = 0 then
    let m := E.quest_map s.qmap r.2 i j
    if m.1 = 0 then
      ⟨set_cell s.qlist i j r.2, m.2,
       s.trace ++ [event.sylverant_quests_read fn, event.quest_map i j]⟩
    else
      ⟨set_cell s.qlist i j (E.sylverant_quests_destroy r.2), m.2,
       s.trace ++ [event.sylverant_quests_read fn, event.quest_map i j,
                   event.sylverant_quests_destroy r.2]⟩
  else
    ⟨set_cell s.qlist i j r.2, s.qmap, s.trace ++ [event.sylverant_quests_read fn]⟩

/-- The reading loops of `load_quests` (lines 107-123), started from the
uninitialised local array and the empty `qmap` of `TAILQ_INIT`. -/
def load_quests_stage (E : Ext) (dir : String) : quest_stage :=
  (List.range E.CLIENT_VERSION_COUNT).foldl
    (fun s i => (List.range E.CLIENT_LANG_COUNT).foldl
      (fun s j => load_quests_cell E dir i j s) s)
    ⟨E.stack_qlist, [], []⟩

/-- The replacement loops of `load_quests` (lines 129-143): every cell of the
live matrix is overwritten with the staged cell, the old cell being destroyed
first unless `initial`. -/
def load_quests_swap (E : Ext) (initial : Int)
    (staged : Nat → Nat → sylverant_quest_list_t)
    (live : (Nat → Nat → sylverant_quest_list_t) × List event) :
    (Nat → Nat → sylverant_quest_list_t) × List event :=
  (List.range E.CLIENT_VERSION_COUNT).foldl
    (fun s i => (List.range E.CLIENT_LANG_COUNT).foldl
      (fun s j =>
        if initial = 0 then
          (set_cell s.1 i j (staged i j), s.2 ++ [event.sylverant_quests_destroy (s.1 i j)])
        else
          (set_cell s.1 i j (staged i j), s.2)) s)
    live

/-- The function `load_quests(s, cfg, initial)` (lines 97-163): return value,
ship afterwards, calls made. The old quest map is handed to `quest_cleanup`
and then overwritten; the result of `quest_cache_maps` only decides whether a
warning is logged. -/
def load_quests (E : Ext) (s : ship_t) (cfg : sylverant_ship_t) (initial : Int) :
    Int × ship_t × List event :=
  match cfg.quests_dir with
  | some dir =>
    if dir ≠ "" then
      let st := load_quests_stage E dir
      let sw := load_quests_swap E initial st.qlist (s.qlist, st.trace ++ [event.qlock_wrlock])
      let t1 := if initial = 0 then sw.2 ++ [event.quest_cleanup s.qmap] else sw.2
      (0, { s with qlist := sw.1, qmap := st.qmap },
       t1 ++ [event.quest_cache_maps st.qmap dir, event.qlock_unlock])
    else
      (-1, { s with qmap := [] }, [])
  | none => (-1, { s with qmap := [] }, [])

/-- The function `refresh_quests(c, f)` (lines 177-186). -/
def refresh_quests (E : Ext) (p : process) (c : ship_client_t) (f : msgfunc) : outcome :=
  if !E.LOCAL_GM c then
    ⟨-1, p, []⟩
  else
    let r := load_quests E p.ship p.ship.cfg 0
    if r.1 = 0 then
      ⟨f c "%s" [fmt_arg.gettext "\tE\tC7Updated quests."], { p with ship := r.2.1 },
       r.2.2 ++ [event.msgfunc c.addr "%s" [fmt_arg.gettext "\tE\tC7Updated quests."]]⟩
    else
      ⟨f c "%s" [fmt_arg.gettext "\tE\tC7No quests configured."], { p with ship := r.2.1 },
       r.2.2 ++ [event.msgfunc c.addr "%s" [fmt_arg.gettext "\tE\tC7No quests configured."]]⟩

/-! ## refresh_gms -/

/-- The function `refresh_gms(c, f)` (lines 188-206). -/
def refresh_gms (E : Ext) (p : process) (c : ship_client_t) (f : msgfunc) : outcome :=
  if !E.LOCAL_ROOT c then
    ⟨-1, p, []⟩
  else
    match p.ship.cfg.gm_file with
    | some fn =>
      if fn ≠ "" then
        let r := E.gm_list_read fn p.ship.gm_list
        let p1 : process := { p with ship := { p.ship with gm_list := r.2 } }
        if r.1 ≠ 0 then
          ⟨f c "%s" [fmt_arg.gettext "\tE\tC7Couldn't read GM list."], p1,
           [event.gm_list_read fn,
            event.msgfunc c.addr "%s" [fmt_arg.gettext "\tE\tC7Couldn't read GM list."]]⟩
        else
          ⟨f c "%s" [fmt_arg.gettext "\tE\tC7Updated GM list."], p1,
           [event.gm_list_read fn,
            event.msgfunc c.addr "%s" [fmt_arg.gettext "\tE\tC7Updated GM list."]]⟩
      else
        ⟨f c "%s" [fmt_arg.gettext "\tE\tC7No GM list configured."], p,
         [event.msgfunc c.addr "%s" [fmt_arg.gettext "\tE\tC7No GM list configured."]]⟩
    | none =>
      ⟨f c "%s" [fmt_arg.gettext "\tE\tC7No GM list configured."], p,
       [event.msgfunc c.addr "%s" [fmt_arg.gettext "\tE\tC7No GM list configured."]]⟩

/-! ## refresh_limits -/

/-- The locals `lq` and `def` of `refresh_limits` while the limits files are
read, with the calls made so far; `failed` records a jump to `err`. -/
structure limits_stage where
  lq : List limits_entry_t
  def_ : Option Nat
  trace : List event
  failed : Bool

/-- The reading loop of `refresh_limits` (lines 227-257), from source `i` on. -/
def refresh_limits_stage (E : Ext) : Nat → List limits_cfg_t → limits_stage → limits_stage
  | _, [], s => s
  | i, e :: es, s =>
    match E.sylverant_read_limits i e.filename with
    | none =>
      { s with trace := s.trace ++ [event.sylverant_read_limits e.filename], failed := true }
    | some l =>
      if E.malloc_fails i then
        { s with
          trace := s.trace ++ [event.sylverant_read_limits e.filename, event.malloc_entry i,
                               event.sylverant_free_limits l],
          failed := true }
      else if e.name.isSome && E.strdup_fails i then
        { s with
          trace := s.trace ++ [event.sylverant_read_limits e.filename, event.malloc_entry i,
                               event.strdup_name i, event.sylverant_free_limits l,
                               event.free_entry i],
          failed := true }
      else
        refresh_limits_stage E (i + 1) es
          { lq := s.lq ++ [⟨e.name, l⟩],
            def_ := if e.enforce then some l else s.def_,
            trace := s.trace ++
              (if e.name.isSome then
                [event.sylverant_read_limits e.filename, event.malloc_entry i,
                 event.strdup_name i]
               else
                [event.sylverant_read_limits e.filename, event.malloc_entry i]),
            failed := false }

/-- The function `refresh_limits(c, f)` (lines 208-272). -/
def refresh_limits (E : Ext) (p : process) (c : ship_client_t) (f : msgfunc) : outcome :=
  if !E.LOCAL_GM c then
    ⟨-1, p, []⟩
  else if p.ship.cfg.limits.length = 0 then
    ⟨f c "%s" [fmt_arg.gettext "\tE\tC7No configured limits."], p,
     [event.msgfunc c.addr "%s" [fmt_arg.gettext "\tE\tC7No configured limits."]]⟩
  else
    let s := refresh_limits_stage E 0 p.ship.cfg.limits ⟨[], none, [], false⟩
    if s.failed then
      ⟨f c "%s" [fmt_arg.gettext "\tE\tC7Error updating limits."], p,
       s.trace ++ [event.ship_free_limits_ex s.lq,
                   event.msgfunc c.addr "%s" [fmt_arg.gettext "\tE\tC7Error updating limits."]]⟩
    else
      ⟨f c "%s" [fmt_arg.gettext "\tE\tC7Updated limits."],
       { p with ship := { p.ship with all_limits := s.lq, def_limits := s.def_ } },
       s.trace ++ [event.llock_wrlock, event.ship_free_limits_ex p.ship.all_limits,
                   event.llock_unlock,
                   event.msgfunc c.addr "%s" [fmt_arg.gettext "\tE\tC7Updated limits."]]⟩

/-! ## broadcast_message -/

/-- The `TAILQ_FOREACH` of `broadcast_message` (lines 292-304). -/
def broadcast_message_clients (message : String) (pfx : Int) : List ship_client_t → List event
  | [] => []
  | i2 :: rest =>
    (if i2.pl then
      if pfx ≠ 0 then
        [event.mutex_lock i2.addr,
         event.send_txt i2.addr "%s" [fmt_arg.gettext "\tE\tC7Global Message:"],
         event.send_txt i2.addr "%s" [fmt_arg.str message],
         event.mutex_unlock i2.addr]
      else
        [event.mutex_lock i2.addr, event.send_txt i2.addr "%s" [fmt_arg.str message],
         event.mutex_unlock i2.addr]
     else
      [event.mutex_lock i2.addr, event.mutex_unlock i2.addr])
    ++ broadcast_message_clients message pfx rest

/-- The block loop of `broadcast_message` (lines 285-308), from index `i` on. -/
def broadcast_message_blocks (message : String) (pfx : Int) :
    Nat → List (Option block_t) → List event
  | _, [] => []
  | i, none :: bs => broadcast_message_blocks message pfx (i + 1) bs
  | i, some b :: bs =>
    if b.run then
      event.rwlock_rdlock i ::
        (broadcast_message_clients message pfx b.clients ++
          event.rwlock_unlock i :: broadcast_message_blocks message pfx (i + 1) bs)
    else
      broadcast_message_blocks message pfx (i + 1) bs

/-- The function `broadcast_message(c, message, prefix)` (lines 274-311); `c`
is `none` for a null actor. -/
def broadcast_message (E : Ext) (p : process) (c : Option ship_client_t) (message : String)
    (pfx : Int) : outcome :=
  match c with
  | some a =>
    if !E.LOCAL_GM a then
      ⟨-1, p, []⟩
    else
      ⟨0, p, broadcast_message_blocks message pfx 0 p.ship.blocks⟩
  | none => ⟨0, p, broadcast_message_blocks message pfx 0 p.ship.blocks⟩

/-! ## schedule_shutdown -/

/-- The `TAILQ_FOREACH` of `schedule_shutdown` (lines 332-365). The format
`"%s %" PRIu32 " %s"` is written with `PRIu32` expanded to `u`. -/
def schedule_shutdown_clients (c : ship_client_t) (when : Nat) (restart : Int) :
    List ship_client_t → List event
  | [] => []
  | i2 :: rest =>
    (if i2.pl then
      if i2.addr ≠ c.addr then
        if restart ≠ 0 then
          [event.mutex_lock i2.addr,
           event.send_txt i2.addr "%s %u %s"
             [fmt_arg.gettext "\tE\tC7Ship is going down for\nrestart in", fmt_arg.u32 when,
              fmt_arg.gettext "minutes."],
           event.mutex_unlock i2.addr]
        else
          [event.mutex_lock i2.addr,
           event.send_txt i2.addr "%s %u %s"
             [fmt_arg.gettext "\tE\tC7Ship is going down for\nshutdown in", fmt_arg.u32 when,
              fmt_arg.gettext "minutes."],
           event.mutex_unlock i2.addr]
      else
        if restart ≠ 0 then
          [event.mutex_lock i2.addr,
           event.msgfunc i2.addr "%s %u %s"
             [fmt_arg.gettext "\tE\tC7Ship is going down for\nrestart in", fmt_arg.u32 when,
              fmt_arg.gettext "minutes."],
           event.mutex_unlock i2.addr]
        else
          [event.mutex_lock i2.addr,
           event.msgfunc i2.addr "%s %u %s"
             [fmt_arg.gettext "\tE\tC7Ship is going down for\nshutdown in", fmt_arg.u32 when,
              fmt_arg.gettext "minutes."],
           event.mutex_unlock i2.addr]
     else
      [event.mutex_lock i2.addr, event.mutex_unlock i2.addr])
    ++ schedule_shutdown_clients c when restart rest

/-- The block loop of `schedule_shutdown` (lines 325-369), from index `i` on. -/
def schedule_shutdown_blocks (c : ship_client_t) (when : Nat) (restart : Int) :
    Nat → List (Option block_t) → List event
  | _, [] => []
  | i, none :: bs => schedule_shutdown_blocks c when restart (i + 1) bs
  | i, some b :: bs =>
    if b.run then
      event.rwlock_rdlock i ::
        (schedule_shutdown_clients c when restart b.clients ++
          event.rwlock_unlock i :: schedule_shutdown_blocks c when restart (i + 1) bs)
    else
      schedule_shutdown_blocks c when restart (i + 1) bs

/-- The function `schedule_shutdown(c, when, restart, f)` (lines 313-379).
`when` is a `uint32_t`, so `when * 60` is computed in 32-bit unsigned
arithmetic before it is added to `time(NULL)`. -/
def schedule_shutdown (E : Ext) (p : process) (c : ship_client_t) (when : Nat)
    (restart : Int) (_f : msgfunc) : outcome :=
  if !E.LOCAL_ROOT c then
    ⟨-1, p, []⟩
  else
    ⟨0, { p with restart_on_shutdown := restart },
     schedule_shutdown_blocks c when restart 0 p.ship.blocks ++
       [event.ship_server_shutdown (E.time + ((when * 60) % 4294967296 : Nat))]⟩

/-! ## Notions used to state the properties -/

/-- Scan order of the find-and-act operations: blocks by index, null and
stopped blocks skipped, the clients of a block in queue order. -/
def scan_order : List (Option block_t) → List ship_client_t
  | [] => []
  | none :: bs => scan_order bs
  | some b :: bs => if b.run then b.clients ++ scan_order bs else scan_order bs

/-- The first client in scan order that carries guildcard `gc`. -/
def first_match (bs : List (Option block_t)) (gc : Nat) : Option ship_client_t :=
  (scan_order bs).find? (fun x => decide (x.guildcard = gc))

/-- The process state `p` with the block array replaced by `bs`. -/
def set_blocks (p : process) (bs : List (Option block_t)) : process :=
  { p with ship := { p.ship with blocks := bs } }

/-- Lock traffic: the four lock and unlock calls on blocks and clients. -/
def event.is_lock : event → Bool
  | event.rwlock_rdlock _ => true
  | event.rwlock_unlock _ => true
  | event.mutex_lock _ => true
  | event.mutex_unlock _ => true
  | _ => false

/-- A sample `Ext`: the privilege tests read one bit of `privilege` each
(bit 0 local GM, bit 1 global GM, bit 2 local root), the disconnect flag is
bit 1 of `flags`, there are two game versions and two languages, the limits
reader fails exactly on the file name `"missing"` and otherwise returns
`100 + i`, the quest reader fails exactly on the file `"q/v1-en/quests.xml"`,
allocation never fails, and every other collaborator returns `ret`. -/
def sample_ext (ret : Int) : Ext where
  LOCAL_GM := fun c => c.privilege &&& 1 != 0
  GLOBAL_GM := fun c => c.privilege &&& 2 != 0
  LOCAL_ROOT := fun c => c.privilege &&& 4 != 0
  CLIENT_FLAG_DISCONNECTED := 2
  SHDR_TYPE_GCBAN := 1
  CLIENT_VERSION_COUNT := 2
  CLIENT_LANG_COUNT := 2
  version_codes := fun i => if i = 0 then "v1" else "v2"
  language_codes := fun j => if j = 0 then "en" else "jp"
  send_txt := fun _ _ _ => ret
  shipgate_send_kick := fun _ _ _ => ret
  shipgate_send_ban := fun _ _ _ _ _ => ret
  sylverant_read_limits := fun i fn => if fn = "missing" then none else some (100 + i)
  malloc_fails := fun _ => false
  strdup_fails := fun _ => false
  stack_qlist := fun _ _ => 7
  sylverant_quests_read := fun fn old => if fn = "q/v1-en/quests.xml" then (-1, old) else (0, 50)
  quest_map := fun m _ i j => (0, m ++ [10 * i + j])
  sylverant_quests_destroy := fun _ => 0
  gm_list_read := fun _ old => (ret, old + 1)
  time := 1000

/-- A sample actor with the given privilege word: the client at address 30,
guildcard 9. -/
def sample_actor (privilege : Nat) : ship_client_t := ⟨30, 9, privilege, 0, true⟩

/-- A sample ship: block 0 stopped, block 1 null, block 2 running with three
clients, two of which carry guildcard 42; block 3 running with one client,
the sample actor. -/
def sample_ship (privilege : Nat) : ship_t where
  cfg := { name := "ship", quests_dir := some "q", gm_file := some "gms.xml",
           limits := [⟨some "A", "a.xml", false⟩, ⟨some "B", "b.xml", true⟩,
                      ⟨some "C", "c.xml", true⟩] }
  blocks := [some ⟨false, [⟨10, 42, 0, 0, true⟩]⟩, none,
             some ⟨true, [⟨20, 7, 0, 0, true⟩, ⟨21, 42, 3, 4, true⟩, ⟨22, 42, 0, 0, false⟩]⟩,
             some ⟨true, [sample_actor privilege]⟩]
  all_limits := [⟨some "old", 5⟩]
  def_limits := some 5
  qlist := fun _ _ => 3
  qmap := [1, 2]
  gm_list := 0

/-- A sample process state around `sample_ship`. -/
def sample_process (privilege : Nat) : process := ⟨sample_ship privilege, 0⟩

/-- A sample reporting callback. -/
def sample_msgfunc : msgfunc := fun _ _ _ => 5

/-- The arguments that a supplied reason adds to a notice: the "Reason:"
label and the reason text; nothing when no reason was supplied. -/
def reason_args : Option String → List fmt_arg
  | some r => [fmt_arg.gettext "Reason:", fmt_arg.str r]
  | none => []

/-- Source `i` cannot be staged: its file does not load, or the entry or the
copy of its name cannot be allocated. -/
def source_fails (E : Ext) (i : Nat) (e : limits_cfg_t) : Bool :=
  match E.sylverant_read_limits i e.filename with
  | none => true
  | some _ => E.malloc_fails i || (e.name.isSome && E.strdup_fails i)

/-- Calls made while staging: reading, allocating, and freeing what was just
read or allocated. -/
def event.is_staging : event → Bool
  | event.sylverant_read_limits _ => true
  | event.malloc_entry _ => true
  | event.strdup_name _ => true
  | event.sylverant_free_limits _ => true
  | event.free_entry _ => true
  | _ => false

/-- A sample process state whose second limits source does not load. -/
def sample_process_bad (privilege : Nat) : process :=
  ⟨{ sample_ship privilege with
      cfg := { (sample_ship privilege).cfg with
        limits := [⟨some "A", "a.xml", false⟩, ⟨some "B", "missing", true⟩,
                   ⟨some "C", "c.xml", true⟩] } }, 0⟩

/-! ## The find-and-act operations with the accesses to client fields

The same two functions once more, this time listing, between the calls, every
access to the `guildcard`, `privilege` or `flags` of the scanned client, so
that the locks held at each access can be checked. -/

/-- One step of `kill_guildcard` or `global_ban`: a call, or an access to a
field of the scanned client at address `client` in block `block`
(`update_flags` is the read-modify-write `i->flags |= ...`). -/
inductive step where
  | call (e : event)
  | read_guildcard (block client : Nat)
  | read_privilege (block client : Nat)
  | update_flags (block client : Nat)
  deriving DecidableEq, Repr

/-- The `TAILQ_FOREACH` of `kill_guildcard` (lines 52-82) step by step; the
second component says whether the function returned from inside the loop.
The mutex is taken at line 53, before `i->guildcard` is compared. -/
def kill_guildcard_clients_steps (c : ship_client_t) (gc : Nat) (reason : Option String)
    (j : Nat) : List ship_client_t → List step × Bool
  | [] => ([], false)
  | i :: rest =>
    if i.guildcard = gc then
      if c.privilege ≤ i.privilege then
        ([step.call (event.mutex_lock i.addr), step.read_guildcard j i.addr,
          step.read_privilege j i.addr, step.call (event.mutex_unlock i.addr),
          step.call (event.rwlock_unlock j),
          step.call (event.send_txt c.addr "%s" [fmt_arg.gettext "\tE\tC7Nice try."])],
         true)
      else
        ([step.call (event.mutex_lock i.addr), step.read_guildcard j i.addr,
          step.read_privilege j i.addr,
          step.call
            (match reason with
             | some r =>
               event.send_message_box i.addr "%s\n\n%s\n%s"
                 [fmt_arg.gettext "\tEYou have been kicked by a GM.",
                  fmt_arg.gettext "Reason:", fmt_arg.str r]
             | none =>
               event.send_message_box i.addr "%s"
                 [fmt_arg.gettext "\tEYou have been kicked by a GM."]),
          step.update_flags j i.addr, step.call (event.mutex_unlock i.addr),
          step.call (event.rwlock_unlock j)],
         true)
    else
      let r := kill_guildcard_clients_steps c gc reason j rest
      (step.call (event.mutex_lock i.addr) :: step.read_guildcard j i.addr ::
         step.call (event.mutex_unlock i.addr) :: r.1,
       r.2)

/-- The block loop of `kill_guildcard` (lines 45-86) step by step. -/
def kill_guildcard_blocks_steps (c : ship_client_t) (gc : Nat) (reason : Option String) :
    Nat → List (Option block_t) → List step × Bool
  | _, [] => ([], false)
  | j, none :: bs => kill_guildcard_blocks_steps c gc reason (j + 1) bs
  | j, some b :: bs =>
    if b.run then
      let s := kill_guildcard_clients_steps c gc reason j b.clients
      if s.2 then
        (step.call (event.rwlock_rdlock j) :: s.1, true)
      else
        let r := kill_guildcard_blocks_steps c gc reason (j + 1) bs
        (step.call (event.rwlock_rdlock j) ::
           (s.1 ++ step.call (event.rwlock_unlock j) :: r.1),
         r.2)
    else
      kill_guildcard_blocks_steps c gc reason (j + 1) bs

/-- The function `kill_guildcard` (lines 33-95) step by step. -/
def kill_guildcard_steps (E : Ext) (p : process) (c : ship_client_t) (gc : Nat)
    (reason : Option String) : List step :=
  if !E.LOCAL_GM c then
    []
  else
    let r := kill_guildcard_blocks_steps c gc reason 0 p.ship.blocks
    if r.2 then r.1
    else if E.GLOBAL_GM c then
      r.1 ++ [step.call (event.shipgate_send_kick c.guildcard gc reason)]
    else r.1

/-- The `TAILQ_FOREACH` of `global_ban` (lines 406-474) step by step.
`i->guildcard` is compared at line 408; the mutex is taken at line 409, inside
the `if`; line 473 unlocks it for every client that did not match. -/
def global_ban_clients_steps (c : ship_client_t) (gc : Nat) (l : Nat)
    (reason : Option String) (j : Nat) : List ship_client_t → List step × Bool
  | [] => ([], false)
  | i :: rest =>
    if i.guildcard = gc then
      if c.privilege ≤ i.privilege then
        ([step.read_guildcard j i.addr, step.call (event.mutex_lock i.addr),
          step.read_privilege j i.addr, step.call (event.mutex_unlock i.addr),
          step.call (event.rwlock_unlock j),
          step.call (event.send_txt c.addr "%s" [fmt_arg.gettext "\tE\tC7Nice try."])],
         true)
      else
        ([step.read_guildcard j i.addr, step.call (event.mutex_lock i.addr),
          step.read_privilege j i.addr,
          step.call
            (event.send_message_box i.addr (global_ban_notice reason (global_ban_len l)).1
              (global_ban_notice reason (global_ban_len l)).2),
          step.update_flags j i.addr, step.call (event.mutex_unlock i.addr),
          step.call (event.rwlock_unlock j)],
         true)
    else
      let r := global_ban_clients_steps c gc l reason j rest
      (step.read_guildcard j i.addr :: step.call (event.mutex_unlock i.addr) :: r.1, r.2)

/-- The block loop of `global_ban` (lines 400-478) step by step. -/
def global_ban_blocks_steps (c : ship_client_t) (gc : Nat) (l : Nat)
    (reason : Option String) : Nat → List (Option block_t) → List step × Bool
  | _, [] => ([], false)
  | j, none :: bs => global_ban_blocks_steps c gc l reason (j + 1) bs
  | j, some b :: bs =>
    if b.run then
      let s := global_ban_clients_steps c gc l reason j b.clients
      if s.2 then
        (step.call (event.rwlock_rdlock j) :: s.1, true)
      else
        let r := global_ban_blocks_steps c gc l reason (j + 1) bs
        (step.call (event.rwlock_rdlock j) ::
           (s.1 ++ step.call (event.rwlock_unlock j) :: r.1),
         r.2)
    else
      global_ban_blocks_steps c gc l reason (j + 1) bs

/-- The function `global_ban` (lines 381-487) step by step. -/
def global_ban_steps (E : Ext) (p : process) (c : ship_client_t) (gc : Nat) (l : Nat)
    (reason : Option String) : List step :=
  if !E.GLOBAL_GM c then
    []
  else if E.shipgate_send_ban E.SHDR_TYPE_GCBAN c.guildcard gc l reason ≠ 0 then
    [step.call (event.shipgate_send_ban E.SHDR_TYPE_GCBAN c.guildcard gc l reason),
     step.call (event.send_txt c.addr "%s" [fmt_arg.gettext "\tE\tC7Error setting ban."])]
  else
    let r := global_ban_blocks_steps c gc l reason 0 p.ship.blocks
    step.call (event.shipgate_send_ban E.SHDR_TYPE_GCBAN c.guildcard gc l reason) ::
      (if r.2 then r.1
       else if E.GLOBAL_GM c then
         r.1 ++ [step.call (event.shipgate_send_kick c.guildcard gc reason)]
       else r.1)

/-- The calls among a list of steps, in order. -/
def calls : List step → List event
  | [] => []
  | step.call e :: xs => e :: calls xs
  | _ :: xs => calls xs

/-- Locks held by the operation: the client mutexes it holds and the block
locks it holds for reading. -/
structure lock_state where
  clients : List Nat
  blocks : List Nat
  deriving DecidableEq, Repr

/-- Effect of one step on the locks held; `none` when the step breaks the
discipline: a field of a scanned client is accessed while the mutex of that
client is not held or the lock of its block is not read-held, or a client
mutex is unlocked that the operation does not hold. -/
def apply_step (s : lock_state) : step → Option lock_state
  | step.call (event.mutex_lock a) => some { s with clients := a :: s.clients }
  | step.call (event.mutex_unlock a) =>
    if a ∈ s.clients then some { s with clients := s.clients.erase a } else none
  | step.call (event.rwlock_rdlock j) => some { s with blocks := j :: s.blocks }
  | step.call (event.rwlock_unlock j) => some { s with blocks := s.blocks.erase j }
  | step.call _ => some s
  | step.read_guildcard j a => if a ∈ s.clients ∧ j ∈ s.blocks then some s else none
  | step.read_privilege j a => if a ∈ s.clients ∧ j ∈ s.blocks then some s else none
  | step.update_flags j a => if a ∈ s.clients ∧ j ∈ s.blocks then some s else none

/-- The locks held after a list of steps, `none` once a step broke the
discipline. -/
def run_steps : lock_state → List step → Option lock_state
  | s, [] => some s
  | s, x :: xs =>
    match apply_step s x with
    | some s1 => run_steps s1 xs
    | none => none

/-- An execution keeps the lock discipline when, started with no lock held,
no step breaks it and no client mutex and no block lock is held at the end. -/
def disciplined (xs : List step) : Bool :=
  decide (run_steps ⟨[], []⟩ xs = some ⟨[], []⟩)

/-! ## Lemmas on the scan of `kill_guildcard` -/

theorem kill_guildcard_clients_nomatch (E : Ext) (c : ship_client_t) (gc : Nat)
    (reason : Option String) (j : Nat) (cl : List ship_client_t)
    (h : ∀ x ∈ cl, x.guildcard ≠ gc) :
    (kill_guildcard_clients E c gc reason j cl).clients = cl ∧
    (kill_guildcard_clients E c gc reason j cl).ret = none ∧
    ∀ e ∈ (kill_guildcard_clients E c gc reason j cl).trace, e.is_lock = true := by
  induction cl with
  | nil => simp [kill_guildcard_clients]
  | cons i rest ih =>
    have hi : i.guildcard ≠ gc := h i (List.mem_cons_self _ _)
    have hr := ih (fun x hx => h x (List.mem_cons_of_mem _ hx))
    simp only [kill_guildcard_clients, if_neg hi]
    refine ⟨by rw [hr.1], hr.2.1, ?_⟩
    intro e he
    simp only [List.mem_cons] at he
    rcases he with rfl | rfl | he
    · rfl
    · rfl
    · exact hr.2.2 e he

theorem kill_guildcard_clients_append (E : Ext) (c : ship_client_t) (gc : Nat)
    (reason : Option String) (j : Nat) (cpre rest : List ship_client_t)
    (h : ∀ x ∈ cpre, x.guildcard ≠ gc) :
    kill_guildcard_clients E c gc reason j (cpre ++ rest) =
      ⟨cpre ++ (kill_guildcard_clients E c gc reason j rest).clients,
       (kill_guildcard_clients E c gc reason j cpre).trace ++
         (kill_guildcard_clients E c gc reason j rest).trace,
       (kill_guildcard_clients E c gc reason j rest).ret⟩ := by
  induction cpre with
  | nil => simp [kill_guildcard_clients]
  | cons i more ih =>
    have hi : i.guildcard ≠ gc := h i (List.mem_cons_self _ _)
    have hr := ih (fun x hx => h x (List.mem_cons_of_mem _ hx))
    simp only [List.cons_append]
    simp only [kill_guildcard_clients, if_neg hi, hr, List.cons_append]

theorem kill_guildcard_blocks_nomatch (E : Ext) (c : ship_client_t) (gc : Nat)
    (reason : Option String) (bs : List (Option block_t)) :
    ∀ j, (∀ x ∈ scan_order bs, x.guildcard ≠ gc) →
    (kill_guildcard_blocks E c gc reason j bs).blocks = bs ∧
    (kill_guildcard_blocks E c gc reason j bs).ret = none ∧
    ∀ e ∈ (kill_guildcard_blocks E c gc reason j bs).trace, e.is_lock = true := by
  induction bs with
  | nil => intro j _; simp [kill_guildcard_blocks]
  | cons b rest ih =>
    intro j h
    cases b with
    | none =>
      have hr := ih (j + 1) (by simpa [scan_order] using h)
      simp only [kill_guildcard_blocks]
      exact ⟨by rw [hr.1], hr.2.1, hr.2.2⟩
    | some b =>
      by_cases hrun : b.run = true
      · have hcl : ∀ x ∈ b.clients, x.guildcard ≠ gc := fun x hx =>
          h x (by simp [scan_order, hrun, hx])
        have hrest : ∀ x ∈ scan_order rest, x.guildcard ≠ gc := fun x hx =>
          h x (by simp [scan_order, hrun, hx])
        have hc := kill_guildcard_clients_nomatch E c gc reason j b.clients hcl
        have hr := ih (j + 1) hrest
        simp only [kill_guildcard_blocks, if_pos hrun, hc.2.1, hc.1]
        refine ⟨by rw [hr.1], hr.2.1, ?_⟩
        intro e he
        simp only [List.mem_cons, List.mem_append] at he
        rcases he with rfl | he | rfl | he
        · rfl
        · exact hc.2.2 e he
        · rfl
        · exact hr.2.2 e he
      · have hrest : ∀ x ∈ scan_order rest, x.guildcard ≠ gc := fun x hx =>
          h x (by simp [scan_order, hrun, hx])
        have hr := ih (j + 1) hrest
        simp only [kill_guildcard_blocks, if_neg hrun]
        exact ⟨by rw [hr.1], hr.2.1, hr.2.2⟩

theorem kill_guildcard_blocks_append (E : Ext) (c : ship_client_t) (gc : Nat)
    (reason : Option String) (pre rest : List (Option block_t)) :
    ∀ j, (∀ x ∈ scan_order pre, x.guildcard ≠ gc) →
    kill_guildcard_blocks E c gc reason j (pre ++ rest) =
      ⟨pre ++ (kill_guildcard_blocks E c gc reason (j + pre.length) rest).blocks,
       (kill_guildcard_blocks E c gc reason j pre).trace ++
         (kill_guildcard_blocks E c gc reason (j + pre.length) rest).trace,
       (kill_guildcard_blocks E c gc reason (j + pre.length) rest).ret⟩ := by
  induction pre with
  | nil => intro j _; simp [kill_guildcard_blocks]
  | cons b more ih =>
    intro j h
    have hlen : j + (b :: more).length = j + 1 + more.length := by
      simp only [List.length_cons]; omega
    cases b with
    | none =>
      have hr := ih (j + 1) (by simpa [scan_order] using h)
      simp only [List.cons_append]
      simp only [kill_guildcard_blocks, hr, hlen]
    | some b =>
      by_cases hrun : b.run = true
      · have hcl : ∀ x ∈ b.clients, x.guildcard ≠ gc := fun x hx =>
          h x (by simp [scan_order, hrun, hx])
        have hrest : ∀ x ∈ scan_order more, x.guildcard ≠ gc := fun x hx =>
          h x (by simp [scan_order, hrun, hx])
        have hc := kill_guildcard_clients_nomatch E c gc reason j b.clients hcl
        have hr := ih (j + 1) hrest
        simp only [List.cons_append]
        simp only [kill_guildcard_blocks, if_pos hrun, hc.2.1, hc.1, hr, hlen, List.cons_append,
          List.append_assoc]
      · have hrest : ∀ x ∈ scan_order more, x.guildcard ≠ gc := fun x hx =>
          h x (by simp [scan_order, hrun, hx])
        have hr := ih (j + 1) hrest
        simp only [List.cons_append]
        simp only [kill_guildcard_blocks, if_neg hrun, hr, hlen]

/-! ## Lemmas on the scan of `global_ban` -/

theorem global_ban_clients_nomatch (E : Ext) (c : ship_client_t) (gc : Nat) (l : Nat)
    (reason : Option String) (j : Nat) (cl : List ship_client_t)
    (h : ∀ x ∈ cl, x.guildcard ≠ gc) :
    (global_ban_clients E c gc l reason j cl).clients = cl ∧
    (global_ban_clients E c gc l reason j cl).ret = none ∧
    ∀ e ∈ (global_ban_clients E c gc l reason j cl).trace, e.is_lock = true := by
  induction cl with
  | nil => simp [global_ban_clients]
  | cons i rest ih =>
    have hi : i.guildcard ≠ gc := h i (List.mem_cons_self _ _)
    have hr := ih (fun x hx => h x (List.mem_cons_of_mem _ hx))
    simp only [global_ban_clients, if_neg hi]
    refine ⟨by rw [hr.1], hr.2.1, ?_⟩
    intro e he
    simp only [List.mem_cons] at he
    rcases he with rfl | he
    · rfl
    · exact hr.2.2 e he

theorem global_ban_clients_append (E : Ext) (c : ship_client_t) (gc : Nat) (l : Nat)
    (reason : Option String) (j : Nat) (cpre rest : List ship_client_t)
    (h : ∀ x ∈ cpre, x.guildcard ≠ gc) :
    global_ban_clients E c gc l reason j (cpre ++ rest) =
      ⟨cpre ++ (global_ban_clients E c gc l reason j rest).clients,
       (global_ban_clients E c gc l reason j cpre).trace ++
         (global_ban_clients E c gc l reason j rest).trace,
       (global_ban_clients E c gc l reason j rest).ret⟩ := by
  induction cpre with
  | nil => simp [global_ban_clients]
  | cons i more ih =>
    have hi : i.guildcard ≠ gc := h i (List.mem_cons_self _ _)
    have hr := ih (fun x hx => h x (List.mem_cons_of_mem _ hx))
    simp only [List.cons_append]
    simp only [global_ban_clients, if_neg hi, hr, List.cons_append]

theorem global_ban_blocks_nomatch (E : Ext) (c : ship_client_t) (gc : Nat) (l : Nat)
    (reason : Option String) (bs : List (Option block_t)) :
    ∀ j, (∀ x ∈ scan_order bs, x.guildcard ≠ gc) →
    (global_ban_blocks E c gc l reason j bs).blocks = bs ∧
    (global_ban_blocks E c gc l reason j bs).ret = none ∧
    ∀ e ∈ (global_ban_blocks E c gc l reason j bs).trace, e.is_lock = true := by
  induction bs with
  | nil => intro j _; simp [global_ban_blocks]
  | cons b rest ih =>
    intro j h
    cases b with
    | none =>
      have hr := ih (j + 1) (by simpa [scan_order] using h)
      simp only [global_ban_blocks]
      exact ⟨by rw [hr.1], hr.2.1, hr.2.2⟩
    | some b =>
      by_cases hrun : b.run = true
      · have hcl : ∀ x ∈ b.clients, x.guildcard ≠ gc := fun x hx =>
          h x (by simp [scan_order, hrun, hx])
        have hrest : ∀ x ∈ scan_order rest, x.guildcard ≠ gc := fun x hx =>
          h x (by simp [scan_order, hrun, hx])
        have hc := global_ban_clients_nomatch E c gc l reason j b.clients hcl
        have hr := ih (j + 1) hrest
        simp only [global_ban_blocks, if_pos hrun, hc.2.1, hc.1]
        refine ⟨by rw [hr.1], hr.2.1, ?_⟩
        intro e he
        simp only [List.mem_cons, List.mem_append] at he
        rcases he with rfl | he | rfl | he
        · rfl
        · exact hc.2.2 e he
        · rfl
        · exact hr.2.2 e he
      · have hrest : ∀ x ∈ scan_order rest, x.guildcard ≠ gc := fun x hx =>
          h x (by simp [scan_order, hrun, hx])
        have hr := ih (j + 1) hrest
        simp only [global_ban_blocks, if_neg hrun]
        exact ⟨by rw [hr.1], hr.2.1, hr.2.2⟩

theorem global_ban_blocks_append (E : Ext) (c : ship_client_t) (gc : Nat) (l : Nat)
    (reason : Option String) (pre rest : List (Option block_t)) :
    ∀ j, (∀ x ∈ scan_order pre, x.guildcard ≠ gc) →
    global_ban_blocks E c gc l reason j (pre ++ rest) =
      ⟨pre ++ (global_ban_blocks E c gc l reason (j + pre.length) rest).blocks,
       (global_ban_blocks E c gc l reason j pre).trace ++
         (global_ban_blocks E c gc l reason (j + pre.length) rest).trace,
       (global_ban_blocks E c gc l reason (j + pre.length) rest).ret⟩ := by
  induction pre with
  | nil => intro j _; simp [global_ban_blocks]
  | cons b more ih =>
    intro j h
    have hlen : j + (b :: more).length = j + 1 + more.length := by
      simp only [List.length_cons]; omega
    cases b with
    | none =>
      have hr := ih (j + 1) (by simpa [scan_order] using h)
      simp only [List.cons_append]
      simp only [global_ban_blocks, hr, hlen]
    | some b =>
      by_cases hrun : b.run = true
      · have hcl : ∀ x ∈ b.clients, x.guildcard ≠ gc := fun x hx =>
          h x (by simp [scan_order, hrun, hx])
        have hrest : ∀ x ∈ scan_order more, x.guildcard ≠ gc := fun x hx =>
          h x (by simp [scan_order, hrun, hx])
        have hc := global_ban_clients_nomatch E c gc l reason j b.clients hcl
        have hr := ih (j + 1) hrest
        simp only [List.cons_append]
        simp only [global_ban_blocks, if_pos hrun, hc.2.1, hc.1, hr, hlen, List.cons_append,
          List.append_assoc]
      · have hrest : ∀ x ∈ scan_order more, x.guildcard ≠ gc := fun x hx =>
          h x (by simp [scan_order, hrun, hx])
        have hr := ih (j + 1) hrest
        simp only [List.cons_append]
        simp only [global_ban_blocks, if_neg hrun, hr, hlen]

/-! ## Locating the first match -/

theorem first_match_decomp (gc : Nat) (t : ship_client_t) (bs : List (Option block_t))
    (h : first_match bs gc = some t) :
    ∃ pre b post cpre cpost, bs = pre ++ some b :: post ∧ b.run = true ∧
      b.clients = cpre ++ t :: cpost ∧ t.guildcard = gc ∧
      (∀ x ∈ scan_order pre, x.guildcard ≠ gc) ∧ (∀ x ∈ cpre, x.guildcard ≠ gc) := by
  induction bs with
  | nil => simp [first_match, scan_order] at h
  | cons b rest ih =>
    have skip : first_match rest gc = some t → scan_order [b] = [] →
        ∃ pre b2 post cpre cpost, b :: rest = pre ++ some b2 :: post ∧ b2.run = true ∧
          b2.clients = cpre ++ t :: cpost ∧ t.guildcard = gc ∧
          (∀ x ∈ scan_order pre, x.guildcard ≠ gc) ∧ (∀ x ∈ cpre, x.guildcard ≠ gc) := by
      intro h1 hb
      obtain ⟨pre, b1, post, cpre, cpost, e1, e2, e3, e4, e5, e6⟩ := ih h1
      refine ⟨b :: pre, b1, post, cpre, cpost, by rw [e1]; rfl, e2, e3, e4, ?_, e6⟩
      intro x hx
      apply e5 x
      cases b with
      | none => simpa [scan_order] using hx
      | some b0 =>
        by_cases hrun : b0.run = true
        · simp [scan_order, hrun] at hb
          simpa [scan_order, hrun, hb] using hx
        · simpa [scan_order, hrun] using hx
    cases b with
    | none => exact skip (by simpa [first_match, scan_order] using h) (by simp [scan_order])
    | some b0 =>
      by_cases hrun : b0.run = true
      · simp only [first_match, scan_order, if_pos hrun, List.find?_append] at h
        cases hf : List.find? (fun x => decide (x.guildcard = gc)) b0.clients with
        | some u =>
          rw [hf] at h
          simp only [Option.or_some, Option.some.injEq] at h
          subst h
          rw [List.find?_eq_some] at hf
          obtain ⟨hu, cpre, cpost, hcl, hno⟩ := hf
          refine ⟨[], b0, rest, cpre, cpost, rfl, hrun, hcl, by simpa using hu, ?_, ?_⟩
          · simp [scan_order]
          · intro x hx; simpa using hno x hx
        | none =>
          rw [hf] at h
          simp only [Option.none_or] at h
          obtain ⟨pre, b1, post, cpre, cpost, e1, e2, e3, e4, e5, e6⟩ := ih h
          refine ⟨some b0 :: pre, b1, post, cpre, cpost, by rw [e1]; rfl, e2, e3, e4, ?_, e6⟩
          intro x hx
          simp only [scan_order, if_pos hrun, List.mem_append] at hx
          rcases hx with hx | hx
          · rw [List.find?_eq_none] at hf
            simpa using hf x hx
          · exact e5 x hx
      · exact skip (by simpa [first_match, scan_order, hrun] using h) (by simp [scan_order, hrun])

theorem kill_guildcard_blocks_reject (E : Ext) (c : ship_client_t) (gc : Nat)
    (reason : Option String) (pre post : List (Option block_t)) (b : block_t)
    (cpre cpost : List ship_client_t) (t : ship_client_t)
    (hrun : b.run = true) (hcl : b.clients = cpre ++ t :: cpost) (ht : t.guildcard = gc)
    (hpre : ∀ x ∈ scan_order pre, x.guildcard ≠ gc) (hcpre : ∀ x ∈ cpre, x.guildcard ≠ gc)
    (hp : c.privilege ≤ t.privilege) :
    kill_guildcard_blocks E c gc reason 0 (pre ++ some b :: post) =
      ⟨pre ++ some b :: post,
       (kill_guildcard_blocks E c gc reason 0 pre).trace ++
         event.rwlock_rdlock pre.length ::
           ((kill_guildcard_clients E c gc reason pre.length cpre).trace ++
             [event.mutex_lock t.addr, event.mutex_unlock t.addr,
              event.rwlock_unlock pre.length,
              event.send_txt c.addr "%s" [fmt_arg.gettext "\tE\tC7Nice try."]]),
       some (E.send_txt c "%s" [fmt_arg.gettext "\tE\tC7Nice try."])⟩ := by
  obtain ⟨run, clients⟩ := b
  simp only at hrun hcl
  subst hrun hcl
  rw [kill_guildcard_blocks_append E c gc reason pre _ 0 hpre]
  simp only [kill_guildcard_blocks, if_true, kill_guildcard_clients_append E c gc reason _ _ _ hcpre,
    kill_guildcard_clients, if_pos ht, if_pos hp, Nat.zero_add]

theorem kill_guildcard_blocks_act (E : Ext) (c : ship_client_t) (gc : Nat)
    (reason : Option String) (pre post : List (Option block_t)) (b : block_t)
    (cpre cpost : List ship_client_t) (t : ship_client_t)
    (hrun : b.run = true) (hcl : b.clients = cpre ++ t :: cpost) (ht : t.guildcard = gc)
    (hpre : ∀ x ∈ scan_order pre, x.guildcard ≠ gc) (hcpre : ∀ x ∈ cpre, x.guildcard ≠ gc)
    (hp : t.privilege < c.privilege) :
    kill_guildcard_blocks E c gc reason 0 (pre ++ some b :: post) =
      ⟨pre ++ some { b with clients :=
          cpre ++ { t with flags := t.flags ||| E.CLIENT_FLAG_DISCONNECTED } :: cpost } :: post,
       (kill_guildcard_blocks E c gc reason 0 pre).trace ++
         event.rwlock_rdlock pre.length ::
           ((kill_guildcard_clients E c gc reason pre.length cpre).trace ++
             [event.mutex_lock t.addr,
              (match reason with
               | some r =>
                 event.send_message_box t.addr "%s\n\n%s\n%s"
                   [fmt_arg.gettext "\tEYou have been kicked by a GM.",
                    fmt_arg.gettext "Reason:", fmt_arg.str r]
               | none =>
                 event.send_message_box t.addr "%s"
                   [fmt_arg.gettext "\tEYou have been kicked by a GM."]),
              event.mutex_unlock t.addr, event.rwlock_unlock pre.length]),
       some 0⟩ := by
  obtain ⟨run, clients⟩ := b
  simp only at hrun hcl
  subst hrun hcl
  rw [kill_guildcard_blocks_append E c gc reason pre _ 0 hpre]
  simp only [kill_guildcard_blocks, if_true, kill_guildcard_clients_append E c gc reason _ _ _ hcpre,
    kill_guildcard_clients, if_pos ht, if_neg (Nat.not_le.mpr hp), Nat.zero_add]

theorem global_ban_blocks_reject (E : Ext) (c : ship_client_t) (gc : Nat) (l : Nat)
    (reason : Option String) (pre post : List (Option block_t)) (b : block_t)
    (cpre cpost : List ship_client_t) (t : ship_client_t)
    (hrun : b.run = true) (hcl : b.clients = cpre ++ t :: cpost) (ht : t.guildcard = gc)
    (hpre : ∀ x ∈ scan_order pre, x.guildcard ≠ gc) (hcpre : ∀ x ∈ cpre, x.guildcard ≠ gc)
    (hp : c.privilege ≤ t.privilege) :
    global_ban_blocks E c gc l reason 0 (pre ++ some b :: post) =
      ⟨pre ++ some b :: post,
       (global_ban_blocks E c gc l reason 0 pre).trace ++
         event.rwlock_rdlock pre.length ::
           ((global_ban_clients E c gc l reason pre.length cpre).trace ++
             [event.mutex_lock t.addr, event.mutex_unlock t.addr,
              event.rwlock_unlock pre.length,
              event.send_txt c.addr "%s" [fmt_arg.gettext "\tE\tC7Nice try."]]),
       some (E.send_txt c "%s" [fmt_arg.gettext "\tE\tC7Nice try."])⟩ := by
  obtain ⟨run, clients⟩ := b
  simp only at hrun hcl
  subst hrun hcl
  rw [global_ban_blocks_append E c gc l reason pre _ 0 hpre]
  simp only [global_ban_blocks, if_true, global_ban_clients_append E c gc l reason _ _ _ hcpre,
    global_ban_clients, if_pos ht, if_pos hp, Nat.zero_add]

theorem global_ban_blocks_act (E : Ext) (c : ship_client_t) (gc : Nat) (l : Nat)
    (reason : Option String) (pre post : List (Option block_t)) (b : block_t)
    (cpre cpost : List ship_client_t) (t : ship_client_t)
    (hrun : b.run = true) (hcl : b.clients = cpre ++ t :: cpost) (ht : t.guildcard = gc)
    (hpre : ∀ x ∈ scan_order pre, x.guildcard ≠ gc) (hcpre : ∀ x ∈ cpre, x.guildcard ≠ gc)
    (hp : t.privilege < c.privilege) :
    global_ban_blocks E c gc l reason 0 (pre ++ some b :: post) =
      ⟨pre ++ some { b with clients :=
          cpre ++ { t with flags := t.flags ||| E.CLIENT_FLAG_DISCONNECTED } :: cpost } :: post,
       (global_ban_blocks E c gc l reason 0 pre).trace ++
         event.rwlock_rdlock pre.length ::
           ((global_ban_clients E c gc l reason pre.length cpre).trace ++
             [event.mutex_lock t.addr,
              event.send_message_box t.addr (global_ban_notice reason (global_ban_len l)).1
                (global_ban_notice reason (global_ban_len l)).2,
              event.mutex_unlock t.addr, event.rwlock_unlock pre.length]),
       some 0⟩ := by
  obtain ⟨run, clients⟩ := b
  simp only at hrun hcl
  subst hrun hcl
  rw [global_ban_blocks_append E c gc l reason pre _ 0 hpre]
  simp only [global_ban_blocks, if_true, global_ban_clients_append E c gc l reason _ _ _ hcpre,
    global_ban_clients, if_pos ht, if_neg (Nat.not_le.mpr hp), Nat.zero_add]

/-! ## Outcome of the two find-and-act operations at the first match -/

theorem kill_guildcard_reject (E : Ext) (p : process) (c : ship_client_t) (gc : Nat)
    (reason : Option String) (pre post : List (Option block_t)) (b : block_t)
    (cpre cpost : List ship_client_t) (t : ship_client_t)
    (hbs : p.ship.blocks = pre ++ some b :: post)
    (hrun : b.run = true) (hcl : b.clients = cpre ++ t :: cpost) (ht : t.guildcard = gc)
    (hpre : ∀ x ∈ scan_order pre, x.guildcard ≠ gc) (hcpre : ∀ x ∈ cpre, x.guildcard ≠ gc)
    (hp : c.privilege ≤ t.privilege) (hgm : E.LOCAL_GM c = true) :
    kill_guildcard E p c gc reason =
      ⟨E.send_txt c "%s" [fmt_arg.gettext "\tE\tC7Nice try."], p,
       (kill_guildcard_blocks E c gc reason 0 pre).trace ++
         event.rwlock_rdlock pre.length ::
           ((kill_guildcard_clients E c gc reason pre.length cpre).trace ++
             [event.mutex_lock t.addr, event.mutex_unlock t.addr,
              event.rwlock_unlock pre.length,
              event.send_txt c.addr "%s" [fmt_arg.gettext "\tE\tC7Nice try."]])⟩ := by
  obtain ⟨⟨cfg, blocks, al, dl, ql, qm, gl⟩, rs⟩ := p
  simp only at hbs
  subst hbs
  simp only [kill_guildcard, hgm, Bool.not_true, Bool.false_eq_true, if_false,
    kill_guildcard_blocks_reject E c gc reason pre post b cpre cpost t hrun hcl ht hpre hcpre hp]

theorem global_ban_reject (E : Ext) (p : process) (c : ship_client_t) (gc : Nat) (l : Nat)
    (reason : Option String) (pre post : List (Option block_t)) (b : block_t)
    (cpre cpost : List ship_client_t) (t : ship_client_t)
    (hbs : p.ship.blocks = pre ++ some b :: post)
    (hrun : b.run = true) (hcl : b.clients = cpre ++ t :: cpost) (ht : t.guildcard = gc)
    (hpre : ∀ x ∈ scan_order pre, x.guildcard ≠ gc) (hcpre : ∀ x ∈ cpre, x.guildcard ≠ gc)
    (hp : c.privilege ≤ t.privilege) (hgm : E.GLOBAL_GM c = true)
    (hban : E.shipgate_send_ban E.SHDR_TYPE_GCBAN c.guildcard gc l reason = 0) :
    global_ban E p c gc l reason =
      ⟨E.send_txt c "%s" [fmt_arg.gettext "\tE\tC7Nice try."], p,
       event.shipgate_send_ban E.SHDR_TYPE_GCBAN c.guildcard gc l reason ::
         ((global_ban_blocks E c gc l reason 0 pre).trace ++
           event.rwlock_rdlock pre.length ::
             ((global_ban_clients E c gc l reason pre.length cpre).trace ++
               [event.mutex_lock t.addr, event.mutex_unlock t.addr,
                event.rwlock_unlock pre.length,
                event.send_txt c.addr "%s" [fmt_arg.gettext "\tE\tC7Nice try."]]))⟩ := by
  obtain ⟨⟨cfg, blocks, al, dl, ql, qm, gl⟩, rs⟩ := p
  simp only at hbs
  subst hbs
  simp only [global_ban, hgm, hban, Bool.not_true, Bool.false_eq_true, if_false, ne_eq,
    not_true_eq_false,
    global_ban_blocks_reject E c gc l reason pre post b cpre cpost t hrun hcl ht hpre hcpre hp]

theorem kill_guildcard_denied (E : Ext) (p : process) (c : ship_client_t) (gc : Nat)
    (reason : Option String) (h : E.LOCAL_GM c = false) :
    kill_guildcard E p c gc reason = ⟨-1, p, []⟩ := by
  simp [kill_guildcard, h]

theorem global_ban_denied (E : Ext) (p : process) (c : ship_client_t) (gc l : Nat)
    (reason : Option String) (h : E.GLOBAL_GM c = false) :
    global_ban E p c gc l reason = ⟨-1, p, []⟩ := by
  simp [global_ban, h]

theorem global_ban_unregistered (E : Ext) (p : process) (c : ship_client_t) (gc l : Nat)
    (reason : Option String) (h : E.GLOBAL_GM c = true)
    (hban : E.shipgate_send_ban E.SHDR_TYPE_GCBAN c.guildcard gc l reason ≠ 0) :
    global_ban E p c gc l reason =
      ⟨E.send_txt c "%s" [fmt_arg.gettext "\tE\tC7Error setting ban."], p,
       [event.shipgate_send_ban E.SHDR_TYPE_GCBAN c.guildcard gc l reason,
        event.send_txt c.addr "%s" [fmt_arg.gettext "\tE\tC7Error setting ban."]]⟩ := by
  simp [global_ban, h, hban]

theorem getLast?_of_suffix (L X : List event) (a b c d : event)
    (h : L = X ++ [a, b, c, d]) : L.getLast? = some d := by
  subst h
  rw [show [a, b, c, d] = [a, b, c] ++ [d] from rfl, ← List.append_assoc,
    List.getLast?_concat]

/-! ## C1: the escalation guard on the target -/

/-- C1, as amended: if the first client in scan order that carries the target
guildcard has a privilege value greater than or equal to the actor's, then
`kill_guildcard` and `global_ban` leave the whole process state (so every
client's flags) as it was, send no message box to anyone, and make the same
calls and return the same value whatever clients and blocks come after that
first match (none of them is examined); and when the actor passes the
privilege test of the operation (and, for `global_ban`, the ban registration
reported success), the last call made is the "Nice try." text sent to the
actor and the operation returns what that call returns. -/
theorem C1_escalation_rejected (E : Ext) (p : process) (c : ship_client_t) (gc l : Nat)
    (reason : Option String) (t : ship_client_t)
    (hfind : first_match p.ship.blocks gc = some t) (hpriv : c.privilege ≤ t.privilege) :
    ((kill_guildcard E p c gc reason).st = p ∧
     (∀ a f args, event.send_message_box a f args ∉ (kill_guildcard E p c gc reason).trace) ∧
     (E.LOCAL_GM c = true →
       (kill_guildcard E p c gc reason).trace.getLast? =
         some (event.send_txt c.addr "%s" [fmt_arg.gettext "\tE\tC7Nice try."]) ∧
       (kill_guildcard E p c gc reason).ret =
         E.send_txt c "%s" [fmt_arg.gettext "\tE\tC7Nice try."])) ∧
    ((global_ban E p c gc l reason).st = p ∧
     (∀ a f args, event.send_message_box a f args ∉ (global_ban E p c gc l reason).trace) ∧
     (E.GLOBAL_GM c = true →
      E.shipgate_send_ban E.SHDR_TYPE_GCBAN c.guildcard gc l reason = 0 →
       (global_ban E p c gc l reason).trace.getLast? =
         some (event.send_txt c.addr "%s" [fmt_arg.gettext "\tE\tC7Nice try."]) ∧
       (global_ban E p c gc l reason).ret =
         E.send_txt c "%s" [fmt_arg.gettext "\tE\tC7Nice try."])) ∧
    ∃ pre b post cpre cpost,
      p.ship.blocks = pre ++ some b :: post ∧ b.clients = cpre ++ t :: cpost ∧
      ∀ cpost2 post2,
        (kill_guildcard E
            (set_blocks p (pre ++ some { b with clients := cpre ++ t :: cpost2 } :: post2))
            c gc reason).trace = (kill_guildcard E p c gc reason).trace ∧
        (kill_guildcard E
            (set_blocks p (pre ++ some { b with clients := cpre ++ t :: cpost2 } :: post2))
            c gc reason).ret = (kill_guildcard E p c gc reason).ret ∧
        (global_ban E
            (set_blocks p (pre ++ some { b with clients := cpre ++ t :: cpost2 } :: post2))
            c gc l reason).trace = (global_ban E p c gc l reason).trace ∧
        (global_ban E
            (set_blocks p (pre ++ some { b with clients := cpre ++ t :: cpost2 } :: post2))
            c gc l reason).ret = (global_ban E p c gc l reason).ret := by
  obtain ⟨pre, b, post, cpre, cpost, hbs, hrun, hcl, ht, hpre, hcpre⟩ :=
    first_match_decomp gc t p.ship.blocks hfind
  have hk1 := kill_guildcard_blocks_nomatch E c gc reason pre 0 hpre
  have hk2 := kill_guildcard_clients_nomatch E c gc reason pre.length cpre hcpre
  have hg1 := global_ban_blocks_nomatch E c gc l reason pre 0 hpre
  have hg2 := global_ban_clients_nomatch E c gc l reason pre.length cpre hcpre
  refine ⟨?_, ?_, pre, b, post, cpre, cpost, hbs, hcl, ?_⟩
  · cases hgm : E.LOCAL_GM c with
    | false =>
      rw [kill_guildcard_denied E p c gc reason hgm]
      simp
    | true =>
      rw [kill_guildcard_reject E p c gc reason pre post b cpre cpost t hbs hrun hcl ht hpre
        hcpre hpriv hgm]
      refine ⟨rfl, ?_, fun _ => ⟨?_, rfl⟩⟩
      · intro a f args hmem
        simp only [List.mem_append, List.mem_cons, List.mem_singleton] at hmem
        rcases hmem with h | h | h | h | h | h | h
        · exact absurd (hk1.2.2 _ h) (by simp [event.is_lock])
        · cases h
        · exact absurd (hk2.2.2 _ h) (by simp [event.is_lock])
        · cases h
        · cases h
        · cases h
        · rcases h with h | h
          · cases h
          · simp at h
      · exact getLast?_of_suffix _
          ((kill_guildcard_blocks E c gc reason 0 pre).trace ++ event.rwlock_rdlock pre.length ::
            (kill_guildcard_clients E c gc reason pre.length cpre).trace)
          (event.mutex_lock t.addr) (event.mutex_unlock t.addr) (event.rwlock_unlock pre.length) _
          (by simp)
  · cases hgm : E.GLOBAL_GM c with
    | false =>
      rw [global_ban_denied E p c gc l reason hgm]
      simp
    | true =>
      by_cases hban : E.shipgate_send_ban E.SHDR_TYPE_GCBAN c.guildcard gc l reason = 0
      · rw [global_ban_reject E p c gc l reason pre post b cpre cpost t hbs hrun hcl ht hpre
          hcpre hpriv hgm hban]
        refine ⟨rfl, ?_, fun _ _ => ⟨?_, rfl⟩⟩
        · intro a f args hmem
          simp only [List.mem_append, List.mem_cons, List.mem_singleton] at hmem
          rcases hmem with h | h | h | h | h | h | h | h
          · cases h
          · exact absurd (hg1.2.2 _ h) (by simp [event.is_lock])
          · cases h
          · exact absurd (hg2.2.2 _ h) (by simp [event.is_lock])
          · cases h
          · cases h
          · cases h
          · rcases h with h | h
            · cases h
            · simp at h
        · exact getLast?_of_suffix _
            (event.shipgate_send_ban E.SHDR_TYPE_GCBAN c.guildcard gc l reason ::
              ((global_ban_blocks E c gc l reason 0 pre).trace ++
                event.rwlock_rdlock pre.length ::
                  (global_ban_clients E c gc l reason pre.length cpre).trace))
            (event.mutex_lock t.addr) (event.mutex_unlock t.addr)
            (event.rwlock_unlock pre.length) _ (by simp)
      · rw [global_ban_unregistered E p c gc l reason hgm hban]
        refine ⟨rfl, ?_, fun _ h0 => absurd h0 hban⟩
        intro a f args hmem
        simp at hmem
  · intro cpost2 post2
    refine ⟨?_, ?_, ?_, ?_⟩
    · cases hgm : E.LOCAL_GM c with
      | false => simp [kill_guildcard_denied, hgm]
      | true =>
        rw [kill_guildcard_reject E p c gc reason pre post b cpre cpost t hbs hrun hcl ht hpre
          hcpre hpriv hgm,
          kill_guildcard_reject E _ c gc reason pre post2 { b with clients := cpre ++ t :: cpost2 }
            cpre cpost2 t rfl hrun rfl ht hpre hcpre hpriv hgm]
    · cases hgm : E.LOCAL_GM c with
      | false => simp [kill_guildcard_denied, hgm]
      | true =>
        rw [kill_guildcard_reject E p c gc reason pre post b cpre cpost t hbs hrun hcl ht hpre
          hcpre hpriv hgm,
          kill_guildcard_reject E _ c gc reason pre post2 { b with clients := cpre ++ t :: cpost2 }
            cpre cpost2 t rfl hrun rfl ht hpre hcpre hpriv hgm]
    · cases hgm : E.GLOBAL_GM c with
      | false => simp [global_ban_denied, hgm]
      | true =>
        by_cases hban : E.shipgate_send_ban E.SHDR_TYPE_GCBAN c.guildcard gc l reason = 0
        · rw [global_ban_reject E p c gc l reason pre post b cpre cpost t hbs hrun hcl ht hpre
            hcpre hpriv hgm hban,
            global_ban_reject E _ c gc l reason pre post2
              { b with clients := cpre ++ t :: cpost2 }
              cpre cpost2 t rfl hrun rfl ht hpre hcpre hpriv hgm hban]
        · simp [global_ban_unregistered, hgm, hban]
    · cases hgm : E.GLOBAL_GM c with
      | false => simp [global_ban_denied, hgm]
      | true =>
        by_cases hban : E.shipgate_send_ban E.SHDR_TYPE_GCBAN c.guildcard gc l reason = 0
        · rw [global_ban_reject E p c gc l reason pre post b cpre cpost t hbs hrun hcl ht hpre
            hcpre hpriv hgm hban,
            global_ban_reject E _ c gc l reason pre post2
              { b with clients := cpre ++ t :: cpost2 }
              cpre cpost2 t rfl hrun rfl ht hpre hcpre hpriv hgm hban]
        · simp [global_ban_unregistered, hgm, hban]

/-- C1 as stated fails for an actor that does not pass the privilege test of
the operation: with the first carrier of guildcard 42 at privilege 3 and an
actor of privilege 0, neither operation sends "Nice try." (nothing is sent at
all and -1 is returned); and a global GM whose ban registration fails is sent
"Error setting ban." instead. -/
theorem C1_counterexample :
    first_match (sample_process 0).ship.blocks 42 = some ⟨21, 42, 3, 4, true⟩ ∧
    (sample_actor 0).privilege ≤ 3 ∧
    kill_guildcard (sample_ext 0) (sample_process 0) (sample_actor 0) 42 none =
      ⟨-1, sample_process 0, []⟩ ∧
    global_ban (sample_ext 0) (sample_process 0) (sample_actor 0) 42 86400 none =
      ⟨-1, sample_process 0, []⟩ ∧
    first_match (sample_process 2).ship.blocks 42 = some ⟨21, 42, 3, 4, true⟩ ∧
    (sample_actor 2).privilege ≤ 3 ∧
    (global_ban (sample_ext (-1)) (sample_process 2) (sample_actor 2) 42 86400 none).trace =
      [event.shipgate_send_ban 1 9 42 86400 none,
       event.send_txt 30 "%s" [fmt_arg.gettext "\tE\tC7Error setting ban."]] := by
  refine ⟨by rfl, by decide, by rfl, by rfl, by rfl, by decide, by rfl⟩

/-- C1 applied in the sample ship: a local and global GM of privilege 3
targets guildcard 42, whose first carrier has privilege 3. -/
theorem C1_escalation_rejected_witness :
    first_match (sample_process 3).ship.blocks 42 = some ⟨21, 42, 3, 4, true⟩ ∧
    (sample_actor 3).privilege ≤ 3 ∧
    (kill_guildcard (sample_ext 0) (sample_process 3) (sample_actor 3) 42 none).st =
      (sample_process 3) ∧
    (global_ban (sample_ext 0) (sample_process 3) (sample_actor 3) 42 0 none).st =
      (sample_process 3) :=
  ⟨by rfl, by decide,
   (C1_escalation_rejected (sample_ext 0) (sample_process 3) (sample_actor 3) 42 0 none
      ⟨21, 42, 3, 4, true⟩ (by rfl) (by decide)).1.1,
   (C1_escalation_rejected (sample_ext 0) (sample_process 3) (sample_actor 3) 42 0 none
      ⟨21, 42, 3, 4, true⟩ (by rfl) (by decide)).2.1.1⟩

/-! ## C2: the privilege guard of every operation -/

/-- C2: an operation called with a non-null actor that fails the privilege
test the operation makes (local GM for `kill_guildcard`, `refresh_quests`,
`refresh_limits` and `broadcast_message`; local root for `refresh_gms` and
`schedule_shutdown`; global GM for `global_ban`) returns -1, leaves the whole
process state as it was (clients and their flags, limits table and default,
quest matrix and map, GM list, restart flag) and makes no call at all: no
lock, no text or message box, no call of the reporting function, no shipgate
request, no shutdown deadline. -/
theorem C2_permission_denied (E : Ext) (p : process) (c : ship_client_t) (f : msgfunc)
    (gc l : Nat) (reason : Option String) (message : String) (pfx : Int) (when : Nat)
    (restart : Int) :
    (E.LOCAL_GM c = false →
      kill_guildcard E p c gc reason = ⟨-1, p, []⟩ ∧
      refresh_quests E p c f = ⟨-1, p, []⟩ ∧
      refresh_limits E p c f = ⟨-1, p, []⟩ ∧
      broadcast_message E p (some c) message pfx = ⟨-1, p, []⟩) ∧
    (E.LOCAL_ROOT c = false →
      refresh_gms E p c f = ⟨-1, p, []⟩ ∧
      schedule_shutdown E p c when restart f = ⟨-1, p, []⟩) ∧
    (E.GLOBAL_GM c = false →
      global_ban E p c gc l reason = ⟨-1, p, []⟩) := by
  refine ⟨fun h => ⟨?_, ?_, ?_, ?_⟩, fun h => ⟨?_, ?_⟩, fun h => ?_⟩
  · simp [kill_guildcard, h]
  · simp [refresh_quests, h]
  · simp [refresh_limits, h]
  · simp [broadcast_message, h]
  · simp [refresh_gms, h]
  · simp [schedule_shutdown, h]
  · simp [global_ban, h]

/-- C2 applied in the sample ship to an actor with no privilege bit set. -/
theorem C2_permission_denied_witness :
    (sample_ext 0).LOCAL_GM (sample_actor 0) = false ∧
    (sample_ext 0).LOCAL_ROOT (sample_actor 0) = false ∧
    (sample_ext 0).GLOBAL_GM (sample_actor 0) = false ∧
    refresh_limits (sample_ext 0) (sample_process 0) (sample_actor 0) sample_msgfunc =
      ⟨-1, sample_process 0, []⟩ ∧
    schedule_shutdown (sample_ext 0) (sample_process 0) (sample_actor 0) 5 1 sample_msgfunc =
      ⟨-1, sample_process 0, []⟩ ∧
    global_ban (sample_ext 0) (sample_process 0) (sample_actor 0) 42 86400 (some "x") =
      ⟨-1, sample_process 0, []⟩ :=
  ⟨by rfl, by rfl, by rfl,
   ((C2_permission_denied (sample_ext 0) (sample_process 0) (sample_actor 0) sample_msgfunc
      42 86400 (some "x") "hello" 1 5 1).1 (by rfl)).2.2.1,
   ((C2_permission_denied (sample_ext 0) (sample_process 0) (sample_actor 0) sample_msgfunc
      42 86400 (some "x") "hello" 1 5 1).2.1 (by rfl)).2,
   (C2_permission_denied (sample_ext 0) (sample_process 0) (sample_actor 0) sample_msgfunc
      42 86400 (some "x") "hello" 1 5 1).2.2 (by rfl)⟩

/-! ## C3: the first match is disconnected -/

theorem kill_guildcard_act (E : Ext) (p : process) (c : ship_client_t) (gc : Nat)
    (reason : Option String) (pre post : List (Option block_t)) (b : block_t)
    (cpre cpost : List ship_client_t) (t : ship_client_t)
    (hbs : p.ship.blocks = pre ++ some b :: post)
    (hrun : b.run = true) (hcl : b.clients = cpre ++ t :: cpost) (ht : t.guildcard = gc)
    (hpre : ∀ x ∈ scan_order pre, x.guildcard ≠ gc) (hcpre : ∀ x ∈ cpre, x.guildcard ≠ gc)
    (hp : t.privilege < c.privilege) (hgm : E.LOCAL_GM c = true) :
    kill_guildcard E p c gc reason =
      ⟨0,
       set_blocks p
         (pre ++
           some { b with
                  clients := cpre ++
                    { t with flags := t.flags ||| E.CLIENT_FLAG_DISCONNECTED } :: cpost } ::
           post),
       (kill_guildcard_blocks E c gc reason 0 pre).trace ++
         event.rwlock_rdlock pre.length ::
           ((kill_guildcard_clients E c gc reason pre.length cpre).trace ++
             [event.mutex_lock t.addr,
              (match reason with
               | some r =>
                 event.send_message_box t.addr "%s\n\n%s\n%s"
                   [fmt_arg.gettext "\tEYou have been kicked by a GM.",
                    fmt_arg.gettext "Reason:", fmt_arg.str r]
               | none =>
                 event.send_message_box t.addr "%s"
                   [fmt_arg.gettext "\tEYou have been kicked by a GM."]),
              event.mutex_unlock t.addr, event.rwlock_unlock pre.length])⟩ := by
  obtain ⟨⟨cfg, blocks, al, dl, ql, qm, gl⟩, rs⟩ := p
  simp only at hbs
  subst hbs
  simp only [kill_guildcard, set_blocks, hgm, Bool.not_true, Bool.false_eq_true, if_false,
    kill_guildcard_blocks_act E c gc reason pre post b cpre cpost t hrun hcl ht hpre hcpre hp]

theorem global_ban_act (E : Ext) (p : process) (c : ship_client_t) (gc : Nat) (l : Nat)
    (reason : Option String) (pre post : List (Option block_t)) (b : block_t)
    (cpre cpost : List ship_client_t) (t : ship_client_t)
    (hbs : p.ship.blocks = pre ++ some b :: post)
    (hrun : b.run = true) (hcl : b.clients = cpre ++ t :: cpost) (ht : t.guildcard = gc)
    (hpre : ∀ x ∈ scan_order pre, x.guildcard ≠ gc) (hcpre : ∀ x ∈ cpre, x.guildcard ≠ gc)
    (hp : t.privilege < c.privilege) (hgm : E.GLOBAL_GM c = true)
    (hban : E.shipgate_send_ban E.SHDR_TYPE_GCBAN c.guildcard gc l reason = 0) :
    global_ban E p c gc l reason =
      ⟨0,
       set_blocks p
         (pre ++
           some { b with
                  clients := cpre ++
                    { t with flags := t.flags ||| E.CLIENT_FLAG_DISCONNECTED } :: cpost } ::
           post),
       event.shipgate_send_ban E.SHDR_TYPE_GCBAN c.guildcard gc l reason ::
         ((global_ban_blocks E c gc l reason 0 pre).trace ++
           event.rwlock_rdlock pre.length ::
             ((global_ban_clients E c gc l reason pre.length cpre).trace ++
               [event.mutex_lock t.addr,
                event.send_message_box t.addr (global_ban_notice reason (global_ban_len l)).1
                  (global_ban_notice reason (global_ban_len l)).2,
                event.mutex_unlock t.addr, event.rwlock_unlock pre.length]))⟩ := by
  obtain ⟨⟨cfg, blocks, al, dl, ql, qm, gl⟩, rs⟩ := p
  simp only at hbs
  subst hbs
  simp only [global_ban, set_blocks, hgm, hban, Bool.not_true, Bool.false_eq_true, if_false,
    ne_eq, not_true_eq_false,
    global_ban_blocks_act E c gc l reason pre post b cpre cpost t hrun hcl ht hpre hcpre hp]

theorem lor_land_self (a b : Nat) : (a ||| b) &&& b = b := by
  apply Nat.eq_of_testBit_eq
  intro i
  simp only [Nat.testBit_land, Nat.testBit_lor]
  cases a.testBit i <;> cases b.testBit i <;> rfl

/-- C3, as amended: when some client of an active block carries the target
guildcard and the first such client `t` in scan order has a privilege value
strictly below the actor's, the block array splits at `t` (no carrier in the
active blocks before its block nor earlier in its queue) and, for
`kill_guildcard` with an actor that passes the local-GM test and for
`global_ban` with a global GM whose ban registration reported success: the
operation returns 0, the process state afterwards is the state before with
only the flags of `t` changed to `flags | CLIENT_FLAG_DISCONNECTED` (every
other client, later carriers of the guildcard included, is as before), and
no kick is sent to the shipgate. The flag is then set in the new flags. -/
theorem C3_first_match_disconnected (E : Ext) (p : process) (c : ship_client_t) (gc l : Nat)
    (reason : Option String) (t : ship_client_t)
    (hfind : first_match p.ship.blocks gc = some t) (hpriv : t.privilege < c.privilege) :
    ∃ pre b post cpre cpost,
      p.ship.blocks = pre ++ some b :: post ∧ b.run = true ∧
      b.clients = cpre ++ t :: cpost ∧
      (∀ x ∈ scan_order pre, x.guildcard ≠ gc) ∧ (∀ x ∈ cpre, x.guildcard ≠ gc) ∧
      (E.LOCAL_GM c = true →
        (kill_guildcard E p c gc reason).ret = 0 ∧
        (kill_guildcard E p c gc reason).st =
          set_blocks p
            (pre ++
              some { b with
                     clients := cpre ++
                       { t with flags := t.flags ||| E.CLIENT_FLAG_DISCONNECTED } :: cpost } ::
              post) ∧
        (∀ r g s, event.shipgate_send_kick r g s ∉ (kill_guildcard E p c gc reason).trace)) ∧
      (E.GLOBAL_GM c = true →
       E.shipgate_send_ban E.SHDR_TYPE_GCBAN c.guildcard gc l reason = 0 →
        (global_ban E p c gc l reason).ret = 0 ∧
        (global_ban E p c gc l reason).st =
          set_blocks p
            (pre ++
              some { b with
                     clients := cpre ++
                       { t with flags := t.flags ||| E.CLIENT_FLAG_DISCONNECTED } :: cpost } ::
              post) ∧
        (∀ r g s, event.shipgate_send_kick r g s ∉ (global_ban E p c gc l reason).trace)) ∧
      (t.flags ||| E.CLIENT_FLAG_DISCONNECTED) &&& E.CLIENT_FLAG_DISCONNECTED =
        E.CLIENT_FLAG_DISCONNECTED := by
  obtain ⟨pre, b, post, cpre, cpost, hbs, hrun, hcl, ht, hpre, hcpre⟩ :=
    first_match_decomp gc t p.ship.blocks hfind
  have hk1 := kill_guildcard_blocks_nomatch E c gc reason pre 0 hpre
  have hk2 := kill_guildcard_clients_nomatch E c gc reason pre.length cpre hcpre
  have hg1 := global_ban_blocks_nomatch E c gc l reason pre 0 hpre
  have hg2 := global_ban_clients_nomatch E c gc l reason pre.length cpre hcpre
  refine ⟨pre, b, post, cpre, cpost, hbs, hrun, hcl, hpre, hcpre, ?_, ?_, lor_land_self _ _⟩
  · intro hgm
    rw [kill_guildcard_act E p c gc reason pre post b cpre cpost t hbs hrun hcl ht hpre hcpre
      hpriv hgm]
    refine ⟨rfl, rfl, ?_⟩
    intro r g s hmem
    simp only [List.mem_append, List.mem_cons, List.mem_singleton] at hmem
    rcases hmem with h | h | h | h | h | h | h
    · exact absurd (hk1.2.2 _ h) (by simp [event.is_lock])
    · cases h
    · exact absurd (hk2.2.2 _ h) (by simp [event.is_lock])
    · cases h
    · cases reason <;> cases h
    · cases h
    · rcases h with h | h
      · cases h
      · simp at h
  · intro hgm hban
    rw [global_ban_act E p c gc l reason pre post b cpre cpost t hbs hrun hcl ht hpre hcpre
      hpriv hgm hban]
    refine ⟨rfl, rfl, ?_⟩
    intro r g s hmem
    simp only [List.mem_append, List.mem_cons, List.mem_singleton] at hmem
    rcases hmem with h | h | h | h | h | h | h | h
    · cases h
    · exact absurd (hg1.2.2 _ h) (by simp [event.is_lock])
    · cases h
    · exact absurd (hg2.2.2 _ h) (by simp [event.is_lock])
    · cases h
    · cases h
    · cases h
    · rcases h with h | h
      · cases h
      · simp at h

/-- C3 as stated fails for `kill_guildcard` when the actor does not pass the
local-GM test: an actor of privilege 4 (above the privilege 3 of the first
carrier of guildcard 42, local-GM bit clear) gets -1 and the ship is as
before, the target's flags still 4. -/
theorem C3_counterexample :
    first_match (sample_process 4).ship.blocks 42 = some ⟨21, 42, 3, 4, true⟩ ∧
    (3 : Nat) < (sample_actor 4).privilege ∧
    kill_guildcard (sample_ext 0) (sample_process 4) (sample_actor 4) 42 none =
      ⟨-1, sample_process 4, []⟩ := by
  refine ⟨by rfl, by decide, by rfl⟩

/-- C3 applied in the sample ship: an actor of privilege 7 targets guildcard
42; only the client at address 21 has its flags changed, from 4 to 6. -/
theorem C3_first_match_disconnected_witness :
    first_match (sample_process 7).ship.blocks 42 = some ⟨21, 42, 3, 4, true⟩ ∧
    (3 : Nat) < (sample_actor 7).privilege ∧
    (kill_guildcard (sample_ext 0) (sample_process 7) (sample_actor 7) 42 none).ret = 0 ∧
    (global_ban (sample_ext 0) (sample_process 7) (sample_actor 7) 42 86400 none).ret = 0 ∧
    (kill_guildcard (sample_ext 0) (sample_process 7) (sample_actor 7) 42 none).st.ship.blocks =
      [some ⟨false, [⟨10, 42, 0, 0, true⟩]⟩, none,
       some ⟨true, [⟨20, 7, 0, 0, true⟩, ⟨21, 42, 3, 6, true⟩, ⟨22, 42, 0, 0, false⟩]⟩,
       some ⟨true, [⟨30, 9, 7, 0, true⟩]⟩] := by
  obtain ⟨_, _, _, _, _, _, _, _, _, _, hk, hg, _⟩ :=
    C3_first_match_disconnected (sample_ext 0) (sample_process 7) (sample_actor 7) 42 86400 none
      ⟨21, 42, 3, 4, true⟩ (by rfl) (by decide)
  exact ⟨by rfl, by decide, (hk (by rfl)).1, (hg (by rfl) (by rfl)).1, by rfl⟩

/-! ## C4, C5: no client carries the target guildcard -/

theorem kill_guildcard_nomatch (E : Ext) (p : process) (c : ship_client_t) (gc : Nat)
    (reason : Option String) (hgm : E.LOCAL_GM c = true)
    (hno : ∀ x ∈ scan_order p.ship.blocks, x.guildcard ≠ gc) :
    kill_guildcard E p c gc reason =
      ⟨0, p,
       (kill_guildcard_blocks E c gc reason 0 p.ship.blocks).trace ++
         (if E.GLOBAL_GM c = true then [event.shipgate_send_kick c.guildcard gc reason]
          else [])⟩ := by
  have h := kill_guildcard_blocks_nomatch E c gc reason p.ship.blocks 0 hno
  obtain ⟨⟨cfg, blocks, al, dl, ql, qm, gl⟩, rs⟩ := p
  simp only at h
  cases hg : E.GLOBAL_GM c <;>
    simp [kill_guildcard, hgm, h.1, h.2.1, hg]

theorem global_ban_nomatch (E : Ext) (p : process) (c : ship_client_t) (gc l : Nat)
    (reason : Option String) (hgm : E.GLOBAL_GM c = true)
    (hban : E.shipgate_send_ban E.SHDR_TYPE_GCBAN c.guildcard gc l reason = 0)
    (hno : ∀ x ∈ scan_order p.ship.blocks, x.guildcard ≠ gc) :
    global_ban E p c gc l reason =
      ⟨0, p,
       event.shipgate_send_ban E.SHDR_TYPE_GCBAN c.guildcard gc l reason ::
         ((global_ban_blocks E c gc l reason 0 p.ship.blocks).trace ++
           [event.shipgate_send_kick c.guildcard gc reason])⟩ := by
  have h := global_ban_blocks_nomatch E c gc l reason p.ship.blocks 0 hno
  obtain ⟨⟨cfg, blocks, al, dl, ql, qm, gl⟩, rs⟩ := p
  simp only at h
  simp [global_ban, hgm, hban, h.1, h.2.1]

/-- C4: `kill_guildcard` called by an actor that passes the local-GM test
for a guildcard that no client of an active block carries leaves the process
state (every client's flags) as it was and makes only lock and unlock calls
(no text, no message box), followed, exactly when the actor passes the
global-GM test, by one `shipgate_send_kick` carrying the actor's guildcard,
the target guildcard and the reason as supplied; when the actor is not a
global GM the operation returns 0. -/
theorem C4_kick_not_found (E : Ext) (p : process) (c : ship_client_t) (gc : Nat)
    (reason : Option String) (hgm : E.LOCAL_GM c = true)
    (hno : ∀ x ∈ scan_order p.ship.blocks, x.guildcard ≠ gc) :
    (kill_guildcard E p c gc reason).st = p ∧
    (∃ locks, (∀ e ∈ locks, e.is_lock = true) ∧
      (kill_guildcard E p c gc reason).trace =
        locks ++ (if E.GLOBAL_GM c = true then [event.shipgate_send_kick c.guildcard gc reason]
                  else [])) ∧
    (E.GLOBAL_GM c = false → (kill_guildcard E p c gc reason).ret = 0) := by
  rw [kill_guildcard_nomatch E p c gc reason hgm hno]
  exact ⟨rfl, ⟨_, (kill_guildcard_blocks_nomatch E c gc reason p.ship.blocks 0 hno).2.2, rfl⟩,
    fun _ => rfl⟩

/-- C4 applied in the sample ship: guildcard 99 is carried by nobody; the
local GM of privilege 1 makes no shipgate call, the GM of privilege 3 ends
with one. -/
theorem C4_kick_not_found_witness :
    (sample_ext 0).LOCAL_GM (sample_actor 1) = true ∧
    (∀ x ∈ scan_order (sample_process 1).ship.blocks, x.guildcard ≠ 99) ∧
    (kill_guildcard (sample_ext 0) (sample_process 1) (sample_actor 1) 99 (some "afk")).st =
      (sample_process 1) ∧
    (kill_guildcard (sample_ext 0) (sample_process 1) (sample_actor 1) 99 (some "afk")).trace =
      [event.rwlock_rdlock 2, event.mutex_lock 20, event.mutex_unlock 20, event.mutex_lock 21,
       event.mutex_unlock 21, event.mutex_lock 22, event.mutex_unlock 22, event.rwlock_unlock 2,
       event.rwlock_rdlock 3, event.mutex_lock 30, event.mutex_unlock 30,
       event.rwlock_unlock 3] ∧
    (kill_guildcard (sample_ext 0) (sample_process 3) (sample_actor 3) 99 (some "afk")).trace =
      [event.rwlock_rdlock 2, event.mutex_lock 20, event.mutex_unlock 20, event.mutex_lock 21,
       event.mutex_unlock 21, event.mutex_lock 22, event.mutex_unlock 22, event.rwlock_unlock 2,
       event.rwlock_rdlock 3, event.mutex_lock 30, event.mutex_unlock 30,
       event.rwlock_unlock 3, event.shipgate_send_kick 9 99 (some "afk")] :=
  ⟨by rfl, by decide,
   (C4_kick_not_found (sample_ext 0) (sample_process 1) (sample_actor 1) 99 (some "afk") (by rfl)
      (by decide)).1,
   by rfl, by rfl⟩

/-- C5, as amended: when no client of an active block carries the target
guildcard and the actor passes the global-GM test, `kill_guildcard` (for an
actor that also passes the local-GM test) and `global_ban` (once the ban
registration reported success) end with one `shipgate_send_kick` carrying the
actor's guildcard, the target guildcard and the reason, and return 0 whatever
that call returns: its result is not used. -/
theorem C5_forward_result_unused (E : Ext) (p : process) (c : ship_client_t) (gc l : Nat)
    (reason : Option String) (hglobal : E.GLOBAL_GM c = true)
    (hno : ∀ x ∈ scan_order p.ship.blocks, x.guildcard ≠ gc) :
    (E.LOCAL_GM c = true →
      (kill_guildcard E p c gc reason).ret = 0 ∧
      (kill_guildcard E p c gc reason).trace.getLast? =
        some (event.shipgate_send_kick c.guildcard gc reason)) ∧
    (E.shipgate_send_ban E.SHDR_TYPE_GCBAN c.guildcard gc l reason = 0 →
      (global_ban E p c gc l reason).ret = 0 ∧
      (global_ban E p c gc l reason).trace.getLast? =
        some (event.shipgate_send_kick c.guildcard gc reason)) := by
  refine ⟨fun hgm => ?_, fun hban => ?_⟩
  · rw [kill_guildcard_nomatch E p c gc reason hgm hno]
    rw [if_pos hglobal]
    exact ⟨rfl, List.getLast?_concat _⟩
  · rw [global_ban_nomatch E p c gc l reason hglobal hban hno]
    refine ⟨rfl, ?_⟩
    rw [← List.cons_append]
    exact List.getLast?_concat _

/-- C5 as stated fails: with a shipgate whose kick request reports -1, both
operations forward the kick for the absent guildcard 99 and return 0. -/
theorem C5_counterexample :
    ({ sample_ext 0 with shipgate_send_kick := fun _ _ _ => -1 } : Ext).shipgate_send_kick
      9 99 none = -1 ∧
    (∀ x ∈ scan_order (sample_process 3).ship.blocks, x.guildcard ≠ 99) ∧
    (kill_guildcard { sample_ext 0 with shipgate_send_kick := fun _ _ _ => -1 }
      (sample_process 3) (sample_actor 3) 99 none).ret = 0 ∧
    event.shipgate_send_kick 9 99 none ∈
      (kill_guildcard { sample_ext 0 with shipgate_send_kick := fun _ _ _ => -1 }
        (sample_process 3) (sample_actor 3) 99 none).trace ∧
    (global_ban { sample_ext 0 with shipgate_send_kick := fun _ _ _ => -1 }
      (sample_process 3) (sample_actor 3) 99 86400 none).ret = 0 ∧
    event.shipgate_send_kick 9 99 none ∈
      (global_ban { sample_ext 0 with shipgate_send_kick := fun _ _ _ => -1 }
        (sample_process 3) (sample_actor 3) 99 86400 none).trace := by
  refine ⟨by rfl, by decide, by rfl, by decide, by rfl, by decide⟩

/-- C5 (amended) applied in the sample ship with a shipgate whose kick
request reports -1. -/
theorem C5_forward_result_unused_witness :
    ({ sample_ext 0 with shipgate_send_kick := fun _ _ _ => -1 } : Ext).GLOBAL_GM
      (sample_actor 3) = true ∧
    (∀ x ∈ scan_order (sample_process 3).ship.blocks, x.guildcard ≠ 99) ∧
    (kill_guildcard { sample_ext 0 with shipgate_send_kick := fun _ _ _ => -1 }
      (sample_process 3) (sample_actor 3) 99 none).ret = 0 ∧
    (global_ban { sample_ext 0 with shipgate_send_kick := fun _ _ _ => -1 }
      (sample_process 3) (sample_actor 3) 99 86400 none).ret = 0 :=
  ⟨by rfl, by decide,
   ((C5_forward_result_unused { sample_ext 0 with shipgate_send_kick := fun _ _ _ => -1 }
      (sample_process 3) (sample_actor 3) 99 86400 none (by rfl) (by decide)).1 (by rfl)).1,
   ((C5_forward_result_unused { sample_ext 0 with shipgate_send_kick := fun _ _ _ => -1 }
      (sample_process 3) (sample_actor 3) 99 86400 none (by rfl) (by decide)).2 (by rfl)).1⟩

/-! ## C6: the ban is registered before anything else -/

/-- C6: for an actor that passes the global-GM test, the first call of
`global_ban` is `shipgate_send_ban` with the ban type, the actor's guildcard,
the target guildcard, the duration and the reason, whether or not a client
carries the guildcard; and if that call reports failure, it is followed only
by the "Error setting ban." text to the actor: no block or client is locked
or examined, the process state (every client's flags) is as before, no
message box and no kick request is sent, and the operation returns what
sending that text returns. -/
theorem C6_ban_registered_first (E : Ext) (p : process) (c : ship_client_t) (gc l : Nat)
    (reason : Option String) (hgm : E.GLOBAL_GM c = true) :
    (global_ban E p c gc l reason).trace.head? =
      some (event.shipgate_send_ban E.SHDR_TYPE_GCBAN c.guildcard gc l reason) ∧
    (E.shipgate_send_ban E.SHDR_TYPE_GCBAN c.guildcard gc l reason ≠ 0 →
      global_ban E p c gc l reason =
        ⟨E.send_txt c "%s" [fmt_arg.gettext "\tE\tC7Error setting ban."], p,
         [event.shipgate_send_ban E.SHDR_TYPE_GCBAN c.guildcard gc l reason,
          event.send_txt c.addr "%s" [fmt_arg.gettext "\tE\tC7Error setting ban."]]⟩) := by
  refine ⟨?_, fun hban => global_ban_unregistered E p c gc l reason hgm hban⟩
  by_cases hban : E.shipgate_send_ban E.SHDR_TYPE_GCBAN c.guildcard gc l reason = 0
  · simp only [global_ban, hgm, hban, Bool.not_true, Bool.false_eq_true, if_false, ne_eq,
      not_true_eq_false, if_true]
    cases (global_ban_blocks E c gc l reason 0 p.ship.blocks).ret <;> rfl
  · rw [global_ban_unregistered E p c gc l reason hgm hban]
    rfl

/-- C6 applied in the sample ship with a shipgate that reports -1: the
carrier of guildcard 42 is connected and untouched. -/
theorem C6_ban_registered_first_witness :
    (sample_ext (-1)).GLOBAL_GM (sample_actor 7) = true ∧
    (sample_ext (-1)).shipgate_send_ban 1 9 42 86400 (some "x") ≠ 0 ∧
    global_ban (sample_ext (-1)) (sample_process 7) (sample_actor 7) 42 86400 (some "x") =
      ⟨-1, sample_process 7,
       [event.shipgate_send_ban 1 9 42 86400 (some "x"),
        event.send_txt 30 "%s" [fmt_arg.gettext "\tE\tC7Error setting ban."]]⟩ :=
  ⟨by rfl, by decide,
   (C6_ban_registered_first (sample_ext (-1)) (sample_process 7) (sample_actor 7) 42 86400
      (some "x") (by rfl)).2 (by decide)⟩

/-! ## C7: the ban notice -/

/-- C7: when `global_ban` acts on a found target `t` (global-GM actor,
registration succeeded, `t` the first carrier in scan order, of lower
privilege), exactly one kind of message box occurs in the calls made, sent to
`t`, and both its format and its arguments are fixed by the duration and by
whether a reason was supplied. For duration 4294967295, 2592000, 604800 and
86400 the format is `"%s\n%s %s"`, extended by `"\n%s\n%s"` when a reason was
supplied, and the arguments are the "banned" header, "Ban Length:" and the
label "Forever", "30 days", "1 week", "1 day" respectively; for any other
duration the format is `"%s"`, extended by `"\n%s\n%s"` when a reason was
supplied, the arguments start with the header alone and no "Ban Length:"
argument occurs. In every case "Reason:" and the reason text follow exactly
when a reason was supplied. -/
theorem C7_ban_notice (E : Ext) (p : process) (c : ship_client_t) (gc l : Nat)
    (reason : Option String) (t : ship_client_t)
    (hfind : first_match p.ship.blocks gc = some t) (hpriv : t.privilege < c.privilege)
    (hgm : E.GLOBAL_GM c = true)
    (hban : E.shipgate_send_ban E.SHDR_TYPE_GCBAN c.guildcard gc l reason = 0) :
    ∃ fmt args,
      (∀ a f x, event.send_message_box a f x ∈ (global_ban E p c gc l reason).trace ↔
        (a = t.addr ∧ f = fmt ∧ x = args)) ∧
      (l = 4294967295 →
        fmt = (if reason = none then "%s\n%s %s" else "%s\n%s %s\n%s\n%s") ∧
        args = [fmt_arg.gettext "\tEYou have been banned by a GM.",
                fmt_arg.gettext "Ban Length:", fmt_arg.gettext "Forever"] ++
               reason_args reason) ∧
      (l = 2592000 →
        fmt = (if reason = none then "%s\n%s %s" else "%s\n%s %s\n%s\n%s") ∧
        args = [fmt_arg.gettext "\tEYou have been banned by a GM.",
                fmt_arg.gettext "Ban Length:", fmt_arg.gettext "30 days"] ++
               reason_args reason) ∧
      (l = 604800 →
        fmt = (if reason = none then "%s\n%s %s" else "%s\n%s %s\n%s\n%s") ∧
        args = [fmt_arg.gettext "\tEYou have been banned by a GM.",
                fmt_arg.gettext "Ban Length:", fmt_arg.gettext "1 week"] ++
               reason_args reason) ∧
      (l = 86400 →
        fmt = (if reason = none then "%s\n%s %s" else "%s\n%s %s\n%s\n%s") ∧
        args = [fmt_arg.gettext "\tEYou have been banned by a GM.",
                fmt_arg.gettext "Ban Length:", fmt_arg.gettext "1 day"] ++
               reason_args reason) ∧
      (l ≠ 4294967295 → l ≠ 2592000 → l ≠ 604800 → l ≠ 86400 →
        fmt = (if reason = none then "%s" else "%s\n%s\n%s") ∧
        args = [fmt_arg.gettext "\tEYou have been banned by a GM."] ++
               reason_args reason ∧
        fmt_arg.gettext "Ban Length:" ∉ args) ∧
      (fmt_arg.gettext "Reason:" ∈ args ↔ reason ≠ none) := by
  obtain ⟨pre, b, post, cpre, cpost, hbs, hrun, hcl, ht, hpre, hcpre⟩ :=
    first_match_decomp gc t p.ship.blocks hfind
  have hg1 := global_ban_blocks_nomatch E c gc l reason pre 0 hpre
  have hg2 := global_ban_clients_nomatch E c gc l reason pre.length cpre hcpre
  refine ⟨(global_ban_notice reason (global_ban_len l)).1,
    (global_ban_notice reason (global_ban_len l)).2, ?_, ?_, ?_, ?_, ?_, ?_, ?_⟩
  · intro a f x
    rw [global_ban_act E p c gc l reason pre post b cpre cpost t hbs hrun hcl ht hpre hcpre
      hpriv hgm hban]
    constructor
    · intro hmem
      simp only [List.mem_append, List.mem_cons, List.mem_singleton] at hmem
      rcases hmem with h | h | h | h | h | h | h
      · cases h
      · exact absurd (hg1.2.2 _ h) (by simp [event.is_lock])
      · cases h
      · exact absurd (hg2.2.2 _ h) (by simp [event.is_lock])
      · cases h
      · cases h
        exact ⟨rfl, rfl, rfl⟩
      · rcases h with h | h | h
        · cases h
        · cases h
        · simp at h
    · rintro ⟨rfl, rfl, rfl⟩
      simp
  · rintro rfl
    cases reason <;> simp [global_ban_notice, global_ban_len, reason_args]
  · rintro rfl
    cases reason <;> simp [global_ban_notice, global_ban_len, reason_args]
  · rintro rfl
    cases reason <;> simp [global_ban_notice, global_ban_len, reason_args]
  · rintro rfl
    cases reason <;> simp [global_ban_notice, global_ban_len, reason_args]
  · intro h1 h2 h3 h4
    cases reason <;> simp [global_ban_notice, global_ban_len, reason_args, h1, h2, h3, h4]
  · cases reason <;> simp only [global_ban_len] <;> split_ifs <;> simp [global_ban_notice]

/-- C7 applied in the sample ship: durations 86400 and 12345 with a reason. -/
theorem C7_ban_notice_witness :
    first_match (sample_process 7).ship.blocks 42 = some ⟨21, 42, 3, 4, true⟩ ∧
    (3 : Nat) < (sample_actor 7).privilege ∧
    (sample_ext 0).GLOBAL_GM (sample_actor 7) = true ∧
    (sample_ext 0).shipgate_send_ban 1 9 42 86400 (some "cheating") = 0 ∧
    event.send_message_box 21 "%s\n%s %s\n%s\n%s"
      [fmt_arg.gettext "\tEYou have been banned by a GM.", fmt_arg.gettext "Ban Length:",
       fmt_arg.gettext "1 day", fmt_arg.gettext "Reason:", fmt_arg.str "cheating"] ∈
      (global_ban (sample_ext 0) (sample_process 7) (sample_actor 7) 42 86400
        (some "cheating")).trace ∧
    (global_ban (sample_ext 0) (sample_process 7) (sample_actor 7) 42 12345
        (some "cheating")).trace =
      [event.shipgate_send_ban 1 9 42 12345 (some "cheating"), event.rwlock_rdlock 2,
       event.mutex_unlock 20, event.mutex_lock 21,
       event.send_message_box 21 "%s\n%s\n%s"
         [fmt_arg.gettext "\tEYou have been banned by a GM.", fmt_arg.gettext "Reason:",
          fmt_arg.str "cheating"],
       event.mutex_unlock 21, event.rwlock_unlock 2] := by
  obtain ⟨fmt, args, hbox, _, _, _, hday, _, _⟩ :=
    C7_ban_notice (sample_ext 0) (sample_process 7) (sample_actor 7) 42 86400 (some "cheating")
      ⟨21, 42, 3, 4, true⟩ (by rfl) (by decide) (by rfl) (by rfl)
  refine ⟨by rfl, by decide, by rfl, by rfl, ?_, by rfl⟩
  obtain ⟨hfmt, hargs⟩ := hday rfl
  have hf : fmt = "%s\n%s %s\n%s\n%s" := by simpa using hfmt
  have ha : args =
      [fmt_arg.gettext "\tEYou have been banned by a GM.", fmt_arg.gettext "Ban Length:",
       fmt_arg.gettext "1 day", fmt_arg.gettext "Reason:", fmt_arg.str "cheating"] := hargs
  subst hf ha
  exact (hbox 21 _ _).2 ⟨rfl, rfl, rfl⟩

/-! ## refresh_limits: the staging loop -/

theorem refresh_limits_stage_lq (E : Ext) :
    ∀ (es : List limits_cfg_t) (i : Nat) (s : limits_stage),
    ∃ L : List limits_entry_t,
      (refresh_limits_stage E i es s).lq = s.lq ++ L ∧
      (∀ n e, n < L.length → es[n]? = some e →
        ∃ l, E.sylverant_read_limits (i + n) e.filename = some l ∧
          L[n]? = some ⟨e.name, l⟩ ∧ source_fails E (i + n) e = false) ∧
      L.length ≤ es.length ∧
      (L.length < es.length →
        (refresh_limits_stage E i es s).failed = true ∧
        ∃ e, es[L.length]? = some e ∧ source_fails E (i + L.length) e = true) ∧
      (L.length = es.length → s.failed = false →
        (refresh_limits_stage E i es s).failed = false) := by
  intro es
  induction es with
  | nil =>
    intro i s
    exact ⟨[], by simp [refresh_limits_stage], by simp, by simp, by simp,
      fun _ h => by simpa [refresh_limits_stage] using h⟩
  | cons e es ih =>
    intro i s
    cases hread : E.sylverant_read_limits i e.filename with
    | none =>
      refine ⟨[], by simp [refresh_limits_stage, hread], by simp, by simp, ?_, by simp⟩
      intro _
      exact ⟨by simp [refresh_limits_stage, hread], e, by simp, by simp [source_fails, hread]⟩
    | some l =>
      by_cases hm : E.malloc_fails i = true
      · refine ⟨[], by simp [refresh_limits_stage, hread, hm], by simp, by simp, ?_, by simp⟩
        intro _
        exact ⟨by simp [refresh_limits_stage, hread, hm], e, by simp,
          by simp [source_fails, hread, hm]⟩
      · by_cases hs : (e.name.isSome && E.strdup_fails i) = true
        · refine ⟨[], by simp [refresh_limits_stage, hread, hm, hs], by simp, by simp, ?_,
            by simp⟩
          intro _
          exact ⟨by simp [refresh_limits_stage, hread, hm, hs], e, by simp,
            by simp [source_fails, hread, hs]⟩
        · obtain ⟨L, h1, h2, h3, h4, h5⟩ := ih (i + 1)
            { lq := s.lq ++ [⟨e.name, l⟩],
              def_ := if e.enforce then some l else s.def_,
              trace := s.trace ++
                (if e.name.isSome then
                  [event.sylverant_read_limits e.filename, event.malloc_entry i,
                   event.strdup_name i]
                 else
                  [event.sylverant_read_limits e.filename, event.malloc_entry i]),
              failed := false }
          have hstep : refresh_limits_stage E i (e :: es) s =
              refresh_limits_stage E (i + 1) es
                { lq := s.lq ++ [⟨e.name, l⟩],
                  def_ := if e.enforce then some l else s.def_,
                  trace := s.trace ++
                    (if e.name.isSome then
                      [event.sylverant_read_limits e.filename, event.malloc_entry i,
                       event.strdup_name i]
                     else
                      [event.sylverant_read_limits e.filename, event.malloc_entry i]),
                  failed := false } := by
            simp only [refresh_limits_stage, hread, if_neg hm, if_neg hs]
          rw [hstep]
          refine ⟨⟨e.name, l⟩ :: L, ?_, ?_, ?_, ?_, ?_⟩
          · rw [h1]; simp
          · intro n e1 hn hget
            cases n with
            | zero =>
              simp only [List.getElem?_cons_zero, Option.some.injEq] at hget
              subst hget
              exact ⟨l, by simpa using hread, by simp,
                by simp [source_fails, hread, hm, hs]⟩
            | succ n =>
              simp only [List.getElem?_cons_succ] at hget
              have hlt : n < L.length := by simpa using hn
              obtain ⟨l1, r1, r2, r3⟩ := h2 n e1 hlt hget
              have hidx : i + (n + 1) = i + 1 + n := by omega
              rw [hidx]
              exact ⟨l1, r1, by simpa using r2, r3⟩
          · simpa using h3
          · intro hlt
            have hlt1 : L.length < es.length := by simpa using hlt
            obtain ⟨q1, e1, q2, q3⟩ := h4 hlt1
            have hidx : i + (L.length + 1) = i + 1 + L.length := by omega
            refine ⟨q1, e1, by simpa using q2, ?_⟩
            simp only [List.length_cons]
            rw [hidx]
            exact q3
          · intro hlen _
            exact h5 (by simpa using hlen) rfl

theorem refresh_limits_stage_def (E : Ext) :
    ∀ (es : List limits_cfg_t) (i : Nat) (s : limits_stage),
      (∀ n e, es[n]? = some e → source_fails E (i + n) e = false) →
      ((∀ e ∈ es, e.enforce = false) → (refresh_limits_stage E i es s).def_ = s.def_) ∧
      (∀ k e, es[k]? = some e → e.enforce = true →
        (∀ m e1, k < m → es[m]? = some e1 → e1.enforce = false) →
        (refresh_limits_stage E i es s).def_ = E.sylverant_read_limits (i + k) e.filename) := by
  intro es
  induction es with
  | nil =>
    intro i s _
    exact ⟨fun _ => by simp [refresh_limits_stage], fun k e h => by simp at h⟩
  | cons e es ih =>
    intro i s hok
    have h0 : source_fails E i e = false := by simpa using hok 0 e (by simp)
    cases hread : E.sylverant_read_limits i e.filename with
    | none => simp [source_fails, hread] at h0
    | some l =>
      have hm : ¬ E.malloc_fails i = true := by
        intro h; simp [source_fails, hread, h] at h0
      have hs : ¬ (e.name.isSome && E.strdup_fails i) = true := by
        intro h; simp [source_fails, hread, h] at h0
      have hok1 : ∀ n e1, es[n]? = some e1 → source_fails E (i + 1 + n) e1 = false := by
        intro n e1 hget
        have hidx : i + 1 + n = i + (n + 1) := by omega
        rw [hidx]
        exact hok (n + 1) e1 (by simpa using hget)
      obtain ⟨a1, a2⟩ := ih (i + 1)
        { lq := s.lq ++ [⟨e.name, l⟩],
          def_ := if e.enforce then some l else s.def_,
          trace := s.trace ++
            (if e.name.isSome then
              [event.sylverant_read_limits e.filename, event.malloc_entry i,
               event.strdup_name i]
             else
              [event.sylverant_read_limits e.filename, event.malloc_entry i]),
          failed := false } hok1
      have hstep : refresh_limits_stage E i (e :: es) s =
          refresh_limits_stage E (i + 1) es
            { lq := s.lq ++ [⟨e.name, l⟩],
              def_ := if e.enforce then some l else s.def_,
              trace := s.trace ++
                (if e.name.isSome then
                  [event.sylverant_read_limits e.filename, event.malloc_entry i,
                   event.strdup_name i]
                 else
                  [event.sylverant_read_limits e.filename, event.malloc_entry i]),
              failed := false } := by
        simp only [refresh_limits_stage, hread, if_neg hm, if_neg hs]
      rw [hstep]
      constructor
      · intro hall
        have he : e.enforce = false := hall e (List.mem_cons_self _ _)
        rw [a1 (fun x hx => hall x (List.mem_cons_of_mem _ hx))]
        simp [he]
      · intro k e1 hget henf hlast
        cases k with
        | zero =>
          simp only [List.getElem?_cons_zero, Option.some.injEq] at hget
          subst hget
          have hrest : ∀ x ∈ es, x.enforce = false := by
            intro x hx
            obtain ⟨m, hm1, hm2⟩ := List.getElem_of_mem hx
            exact hlast (m + 1) x (by omega) (by simp [List.getElem?_eq_getElem hm1, hm2])
          rw [a1 hrest]
          simp [henf, hread]
        | succ k =>
          simp only [List.getElem?_cons_succ] at hget
          have hidx : i + (k + 1) = i + 1 + k := by omega
          rw [hidx]
          apply a2 k e1 hget henf
          intro m e2 hkm hget2
          exact hlast (m + 1) e2 (by omega) (by simpa using hget2)

theorem refresh_limits_stage_trace (E : Ext) :
    ∀ (es : List limits_cfg_t) (i : Nat) (s : limits_stage),
      (∀ x ∈ s.trace, x.is_staging = true) →
      ∀ x ∈ (refresh_limits_stage E i es s).trace, x.is_staging = true := by
  intro es
  induction es with
  | nil => intro i s h; simpa [refresh_limits_stage] using h
  | cons e es ih =>
    intro i s h
    cases hread : E.sylverant_read_limits i e.filename with
    | none =>
      intro x hx
      simp only [refresh_limits_stage, hread, List.mem_append, List.mem_singleton] at hx
      rcases hx with hx | rfl
      · exact h x hx
      · rfl
    | some l =>
      by_cases hm : E.malloc_fails i = true
      · intro x hx
        simp only [refresh_limits_stage, hread, if_pos hm, List.mem_append, List.mem_cons,
          List.mem_singleton, List.not_mem_nil, or_false] at hx
        rcases hx with hx | rfl | rfl | rfl
        · exact h x hx
        · rfl
        · rfl
        · rfl
      · by_cases hs : (e.name.isSome && E.strdup_fails i) = true
        · intro x hx
          simp only [refresh_limits_stage, hread, if_neg hm, if_pos hs, List.mem_append,
            List.mem_cons, List.mem_singleton, List.not_mem_nil, or_false] at hx
          rcases hx with hx | rfl | rfl | rfl | rfl | rfl
          · exact h x hx
          · rfl
          · rfl
          · rfl
          · rfl
          · rfl
        · have hstep : refresh_limits_stage E i (e :: es) s =
              refresh_limits_stage E (i + 1) es
                { lq := s.lq ++ [⟨e.name, l⟩],
                  def_ := if e.enforce then some l else s.def_,
                  trace := s.trace ++
                    (if e.name.isSome then
                      [event.sylverant_read_limits e.filename, event.malloc_entry i,
                       event.strdup_name i]
                     else
                      [event.sylverant_read_limits e.filename, event.malloc_entry i]),
                  failed := false } := by
            simp only [refresh_limits_stage, hread, if_neg hm, if_neg hs]
          rw [hstep]
          apply ih
          intro x hx
          simp only [List.mem_append] at hx
          rcases hx with hx | hx
          · exact h x hx
          · cases hn : e.name.isSome
            · simp only [hn, Bool.false_eq_true, if_false, List.mem_cons, List.mem_singleton,
                List.not_mem_nil, or_false] at hx
              rcases hx with rfl | rfl
              · rfl
              · rfl
            · simp only [hn, if_true, List.mem_cons, List.mem_singleton,
                List.not_mem_nil, or_false] at hx
              rcases hx with rfl | rfl | rfl
              · rfl
              · rfl
              · rfl

/-! ## C8: a failed limits reload leaves the live table alone -/

/-- C8: `refresh_limits` called by an actor that passes the local-GM test,
when some configured source `k` fails (its file does not load, or the entry,
or the copy of its name, cannot be allocated): the process state is exactly
what it was (live profile collection and default profile included), the
calls made are staging calls only (no write lock on the live table), followed
by `ship_free_limits_ex` on the staged queue and by the report "Error
updating limits." to the actor through the reporting function, whose result
is returned. The staged queue handed to `ship_free_limits_ex` holds one entry
for every source before the first failing one, in order, with the configured
name and the ruleset read for it. -/
theorem C8_limits_reload_failure (E : Ext) (p : process) (c : ship_client_t) (f : msgfunc)
    (k : Nat) (e : limits_cfg_t)
    (hgm : E.LOCAL_GM c = true) (hk : p.ship.cfg.limits[k]? = some e)
    (hfail : E.sylverant_read_limits k e.filename = none ∨ E.malloc_fails k = true ∨
      (e.name ≠ none ∧ E.strdup_fails k = true)) :
    (refresh_limits E p c f).st = p ∧
    (refresh_limits E p c f).ret = f c "%s" [fmt_arg.gettext "\tE\tC7Error updating limits."] ∧
    ∃ calls staged,
      (refresh_limits E p c f).trace =
        calls ++ [event.ship_free_limits_ex staged,
                  event.msgfunc c.addr "%s" [fmt_arg.gettext "\tE\tC7Error updating limits."]] ∧
      (∀ x ∈ calls, x.is_staging = true) ∧
      staged.length ≤ k ∧
      (∀ n e1, n < staged.length → p.ship.cfg.limits[n]? = some e1 →
        ∃ l, E.sylverant_read_limits n e1.filename = some l ∧
          staged[n]? = some ⟨e1.name, l⟩) ∧
      (∃ e2, p.ship.cfg.limits[staged.length]? = some e2 ∧
        source_fails E staged.length e2 = true) := by
  have hsf : source_fails E k e = true := by
    rcases hfail with h | h | ⟨h1, h2⟩
    · simp [source_fails, h]
    · cases hr : E.sylverant_read_limits k e.filename <;> simp [source_fails, hr, h]
    · have hsome : e.name.isSome = true := by
        cases hn : e.name with
        | none => exact absurd hn h1
        | some _ => rfl
      cases hr : E.sylverant_read_limits k e.filename <;> simp [source_fails, hr, h2, hsome]
  have hklt : k < p.ship.cfg.limits.length := by
    by_contra hge
    rw [List.getElem?_eq_none (Nat.le_of_not_lt hge)] at hk
    cases hk
  have hlen : ¬ p.ship.cfg.limits.length = 0 := by omega
  obtain ⟨L, h1, h2, h3, h4, h5⟩ :=
    refresh_limits_stage_lq E p.ship.cfg.limits 0 ⟨[], none, [], false⟩
  have htr := refresh_limits_stage_trace E p.ship.cfg.limits 0 ⟨[], none, [], false⟩
    (by simp)
  have hLk : L.length ≤ k := by
    by_contra hgt
    obtain ⟨l, _, _, r3⟩ := h2 k e (Nat.lt_of_not_le hgt) hk
    rw [Nat.zero_add] at r3
    rw [hsf] at r3
    cases r3
  have hLlt : L.length < p.ship.cfg.limits.length := by omega
  obtain ⟨hfailed, e2, he2, hf2⟩ := h4 hLlt
  simp only [List.nil_append] at h1
  simp only [refresh_limits, hgm, Bool.not_true, Bool.false_eq_true, if_false, if_neg hlen,
    hfailed, if_true, h1]
  refine ⟨trivial, trivial, _, L, rfl, htr, hLk, ?_, e2, he2, by simpa using hf2⟩
  intro n e1 hn hget
  obtain ⟨l, r1, r2, _⟩ := h2 n e1 hn hget
  exact ⟨l, by simpa using r1, r2⟩

/-- C8 applied to the sample ship with a second source that does not load:
the entry staged for the first source is freed and the live table stays. -/
theorem C8_limits_reload_failure_witness :
    (sample_ext 0).LOCAL_GM (sample_actor 1) = true ∧
    (sample_process_bad 1).ship.cfg.limits[1]? = some ⟨some "B", "missing", true⟩ ∧
    (sample_ext 0).sylverant_read_limits 1 "missing" = none ∧
    (refresh_limits (sample_ext 0) (sample_process_bad 1) (sample_actor 1) sample_msgfunc).st =
      (sample_process_bad 1) ∧
    (refresh_limits (sample_ext 0) (sample_process_bad 1) (sample_actor 1) sample_msgfunc).trace =
      [event.sylverant_read_limits "a.xml", event.malloc_entry 0, event.strdup_name 0,
       event.sylverant_read_limits "missing",
       event.ship_free_limits_ex [⟨some "A", 100⟩],
       event.msgfunc 30 "%s" [fmt_arg.gettext "\tE\tC7Error updating limits."]] :=
  ⟨by rfl, by rfl, by rfl,
   (C8_limits_reload_failure (sample_ext 0) (sample_process_bad 1) (sample_actor 1) sample_msgfunc
      1 ⟨some "B", "missing", true⟩ (by rfl) (by rfl) (Or.inl (by rfl))).1,
   by rfl⟩

/-! ## C10: a successful limits reload -/

/-- C10, as amended: `refresh_limits` called by an actor that passes the
local-GM test, with at least one configured source, when every configured
source loads and its entry and name copy are allocated: the reporting
function is called last with "Updated limits." and its result returned;
nothing in the process state changes but the live profile collection and the
default profile; the live collection has one entry per configured source, in
configuration order, entry `n` holding the configured name and the ruleset
read for source `n`; the default profile is absent when no source has
`enforce` on, and otherwise is the ruleset read for the last source that has
it on. -/
theorem C10_limits_reload_success (E : Ext) (p : process) (c : ship_client_t) (f : msgfunc)
    (hgm : E.LOCAL_GM c = true) (hne : p.ship.cfg.limits ≠ [])
    (hload : ∀ n e, p.ship.cfg.limits[n]? = some e →
      E.sylverant_read_limits n e.filename ≠ none)
    (halloc : ∀ n, n < p.ship.cfg.limits.length →
      E.malloc_fails n = false ∧ E.strdup_fails n = false) :
    (refresh_limits E p c f).ret = f c "%s" [fmt_arg.gettext "\tE\tC7Updated limits."] ∧
    (refresh_limits E p c f).trace.getLast? =
      some (event.msgfunc c.addr "%s" [fmt_arg.gettext "\tE\tC7Updated limits."]) ∧
    (refresh_limits E p c f).st =
      { p with ship := { p.ship with
          all_limits := (refresh_limits E p c f).st.ship.all_limits,
          def_limits := (refresh_limits E p c f).st.ship.def_limits } } ∧
    (refresh_limits E p c f).st.ship.all_limits.length = p.ship.cfg.limits.length ∧
    (∀ n e, p.ship.cfg.limits[n]? = some e →
      ∃ l, E.sylverant_read_limits n e.filename = some l ∧
        (refresh_limits E p c f).st.ship.all_limits[n]? = some ⟨e.name, l⟩) ∧
    ((∀ e ∈ p.ship.cfg.limits, e.enforce = false) →
      (refresh_limits E p c f).st.ship.def_limits = none) ∧
    (∀ k e, p.ship.cfg.limits[k]? = some e → e.enforce = true →
      (∀ m e1, k < m → p.ship.cfg.limits[m]? = some e1 → e1.enforce = false) →
      (refresh_limits E p c f).st.ship.def_limits =
        E.sylverant_read_limits k e.filename) := by
  have hok : ∀ n e, p.ship.cfg.limits[n]? = some e → source_fails E (0 + n) e = false := by
    intro n e hget
    have hlt : n < p.ship.cfg.limits.length := by
      by_contra hge
      rw [List.getElem?_eq_none (Nat.le_of_not_lt hge)] at hget
      cases hget
    obtain ⟨a1, a2⟩ := halloc n hlt
    rw [Nat.zero_add]
    cases hr : E.sylverant_read_limits n e.filename with
    | none => exact absurd hr (hload n e hget)
    | some l => simp [source_fails, hr, a1, a2]
  have hlen : ¬ p.ship.cfg.limits.length = 0 := by
    intro h0
    exact hne (List.length_eq_zero.mp h0)
  obtain ⟨L, h1, h2, h3, h4, h5⟩ :=
    refresh_limits_stage_lq E p.ship.cfg.limits 0 ⟨[], none, [], false⟩
  obtain ⟨d1, d2⟩ := refresh_limits_stage_def E p.ship.cfg.limits 0 ⟨[], none, [], false⟩ hok
  have hLlen : L.length = p.ship.cfg.limits.length := by
    by_contra hneq
    have hlt : L.length < p.ship.cfg.limits.length := by omega
    obtain ⟨_, e2, he2, hf2⟩ := h4 hlt
    rw [hok _ e2 he2] at hf2
    cases hf2
  have hfailed := h5 hLlen rfl
  simp only [List.nil_append] at h1
  simp only [refresh_limits, hgm, Bool.not_true, Bool.false_eq_true, if_false, if_neg hlen,
    hfailed, h1]
  refine ⟨trivial, ?_, trivial, hLlen, ?_, ?_, ?_⟩
  · rw [show ∀ (T : List event) (a b c d : event), T ++ [a, b, c, d] = (T ++ [a, b, c]) ++ [d]
      from fun T a b c d => by simp]
    exact List.getLast?_concat _
  · intro n e hget
    have hlt : n < L.length := by
      rw [hLlen]
      by_contra hge
      rw [List.getElem?_eq_none (Nat.le_of_not_lt hge)] at hget
      cases hget
    obtain ⟨l, r1, r2, _⟩ := h2 n e hlt hget
    exact ⟨l, by simpa using r1, r2⟩
  · intro hall
    exact d1 hall
  · intro k e hget henf hlast
    have := d2 k e hget henf hlast
    simpa using this

/-- C10 as stated fails when the operation does not get to the replacement
although every source loads: an actor that fails the local-GM test gets -1
and the live collection and default stay as they were; and when the entry of
a source cannot be allocated, the actor gets "Error updating limits." and the
live table stays as well. -/
theorem C10_counterexample :
    (∀ x ∈ (sample_process 0).ship.cfg.limits.enum,
      ((sample_ext 0).sylverant_read_limits x.1 x.2.filename).isSome = true) ∧
    refresh_limits (sample_ext 0) (sample_process 0) (sample_actor 0) sample_msgfunc =
      ⟨-1, sample_process 0, []⟩ ∧
    (sample_process 0).ship.all_limits = [⟨some "old", 5⟩] ∧
    (refresh_limits { sample_ext 0 with malloc_fails := fun i => decide (i = 1) }
      (sample_process 1) (sample_actor 1) sample_msgfunc).st = sample_process 1 ∧
    (refresh_limits { sample_ext 0 with malloc_fails := fun i => decide (i = 1) }
      (sample_process 1) (sample_actor 1) sample_msgfunc).trace.getLast? =
      some (event.msgfunc 30 "%s" [fmt_arg.gettext "\tE\tC7Error updating limits."]) := by
  refine ⟨by decide, by rfl, by rfl, by rfl, by rfl⟩

/-- C10 (amended) applied to the sample ship, whose sources are A (enforce
off), B (enforce on), C (enforce on): the default becomes the ruleset of C. -/
theorem C10_limits_reload_success_witness :
    (sample_ext 0).LOCAL_GM (sample_actor 1) = true ∧
    (sample_process 1).ship.cfg.limits =
      [⟨some "A", "a.xml", false⟩, ⟨some "B", "b.xml", true⟩, ⟨some "C", "c.xml", true⟩] ∧
    (refresh_limits (sample_ext 0) (sample_process 1) (sample_actor 1)
      sample_msgfunc).st.ship.all_limits.length = 3 ∧
    (refresh_limits (sample_ext 0) (sample_process 1) (sample_actor 1)
      sample_msgfunc).st.ship.all_limits =
      [⟨some "A", 100⟩, ⟨some "B", 101⟩, ⟨some "C", 102⟩] ∧
    (refresh_limits (sample_ext 0) (sample_process 1) (sample_actor 1)
      sample_msgfunc).st.ship.def_limits = some 102 :=
  ⟨by rfl, by rfl,
   (C10_limits_reload_success (sample_ext 0) (sample_process 1) (sample_actor 1) sample_msgfunc
      (by rfl) (by decide)
      (fun n e h => by
        have h3 : n < 3 := by
          by_contra hge
          have : (sample_process 1).ship.cfg.limits[n]? = none :=
            List.getElem?_eq_none (Nat.le_of_not_lt hge)
          rw [this] at h
          cases h
        have h012 : n = 0 ∨ n = 1 ∨ n = 2 := by omega
        rcases h012 with rfl | rfl | rfl <;> (cases h; decide))
      (fun n _ => ⟨rfl, rfl⟩)).2.2.2.1,
   by rfl, by rfl⟩

/-! ## C9: the quest reload -/

theorem load_quests_swap_inner (initial : Int)
    (staged : Nat → Nat → sylverant_quest_list_t) (i : Nat) :
    ∀ (js : List Nat) (s : (Nat → Nat → sylverant_quest_list_t) × List event),
      (js.foldl
        (fun s j =>
          if initial = 0 then
            (set_cell s.1 i j (staged i j), s.2 ++ [event.sylverant_quests_destroy (s.1 i j)])
          else
            (set_cell s.1 i j (staged i j), s.2)) s).1 =
        fun a b => if a = i ∧ b ∈ js then staged a b else s.1 a b := by
  intro js
  induction js with
  | nil => intro s; simp
  | cons j js ih =>
    intro s
    rw [List.foldl_cons, ih]
    funext a b
    by_cases h0 : initial = 0
    · simp only [h0, if_true, set_cell, List.mem_cons]
      by_cases ha : a = i
      · by_cases hb : b ∈ js
        · simp [ha, hb]
        · by_cases hj : b = j
          · simp [ha, hj]
          · simp [ha, hb, hj]
      · simp [ha]
    · simp only [if_neg h0, set_cell, List.mem_cons]
      by_cases ha : a = i
      · by_cases hb : b ∈ js
        · simp [ha, hb]
        · by_cases hj : b = j
          · simp [ha, hj]
          · simp [ha, hb, hj]
      · simp [ha]

theorem load_quests_swap_outer (initial : Int)
    (staged : Nat → Nat → sylverant_quest_list_t) (js : List Nat) :
    ∀ (is : List Nat) (s : (Nat → Nat → sylverant_quest_list_t) × List event),
      (is.foldl
        (fun s i => js.foldl
          (fun s j =>
            if initial = 0 then
              (set_cell s.1 i j (staged i j),
               s.2 ++ [event.sylverant_quests_destroy (s.1 i j)])
            else
              (set_cell s.1 i j (staged i j), s.2)) s) s).1 =
        fun a b => if a ∈ is ∧ b ∈ js then staged a b else s.1 a b := by
  intro is
  induction is with
  | nil => intro s; simp
  | cons i is ih =>
    intro s
    rw [List.foldl_cons, ih, load_quests_swap_inner]
    funext a b
    simp only [List.mem_cons]
    by_cases hb : b ∈ js
    · by_cases ha : a ∈ is
      · simp [ha, hb]
      · by_cases hi : a = i
        · simp [hi, hb]
        · simp [ha, hi, hb]
    · simp [hb]

theorem load_quests_swap_cells (E : Ext) (initial : Int)
    (staged : Nat → Nat → sylverant_quest_list_t)
    (live : (Nat → Nat → sylverant_quest_list_t) × List event) :
    (load_quests_swap E initial staged live).1 =
      fun a b =>
        if a < E.CLIENT_VERSION_COUNT ∧ b < E.CLIENT_LANG_COUNT then staged a b
        else live.1 a b := by
  unfold load_quests_swap
  rw [load_quests_swap_outer]
  funext a b
  simp only [List.mem_range]

/-- C9, as amended: `refresh_quests` called by an actor that passes the
local-GM test on a ship with a non-empty quest directory configured always
goes through with the replacement, whatever `sylverant_quests_read` and
`quest_map` report for any cell: every cell of the live matrix inside the
version and language counts is overwritten with the cell of the matrix built
while reading, the live quest map becomes the map built while reading, and
the last call is the report "Updated quests." to the actor through the
reporting function, whose result is returned. -/
theorem C9_quest_reload_proceeds (E : Ext) (p : process) (c : ship_client_t) (f : msgfunc)
    (dir : String) (hgm : E.LOCAL_GM c = true)
    (hdir : p.ship.cfg.quests_dir = some dir) (hne : dir ≠ "") :
    (refresh_quests E p c f).ret = f c "%s" [fmt_arg.gettext "\tE\tC7Updated quests."] ∧
    (refresh_quests E p c f).trace.getLast? =
      some (event.msgfunc c.addr "%s" [fmt_arg.gettext "\tE\tC7Updated quests."]) ∧
    (refresh_quests E p c f).st.ship.qmap = (load_quests_stage E dir).qmap ∧
    (∀ i j, i < E.CLIENT_VERSION_COUNT → j < E.CLIENT_LANG_COUNT →
      (refresh_quests E p c f).st.ship.qlist i j = (load_quests_stage E dir).qlist i j) ∧
    (∀ i j, ¬ (i < E.CLIENT_VERSION_COUNT ∧ j < E.CLIENT_LANG_COUNT) →
      (refresh_quests E p c f).st.ship.qlist i j = p.ship.qlist i j) := by
  have hl : load_quests E p.ship p.ship.cfg 0 =
      (0, { p.ship with
              qlist := (load_quests_swap E 0 (load_quests_stage E dir).qlist
                (p.ship.qlist, (load_quests_stage E dir).trace ++ [event.qlock_wrlock])).1,
              qmap := (load_quests_stage E dir).qmap },
       ((load_quests_swap E 0 (load_quests_stage E dir).qlist
          (p.ship.qlist, (load_quests_stage E dir).trace ++ [event.qlock_wrlock])).2 ++
          [event.quest_cleanup p.ship.qmap]) ++
         [event.quest_cache_maps (load_quests_stage E dir).qmap dir, event.qlock_unlock]) := by
    simp only [load_quests, hdir, ne_eq, hne, not_false_eq_true, if_true]
  simp only [refresh_quests, hgm, Bool.not_true, Bool.false_eq_true, if_false, hl, if_true]
  refine ⟨trivial, List.getLast?_concat _, trivial, ?_, ?_⟩
  · intro i j hi hj
    rw [load_quests_swap_cells]
    simp [hi, hj]
  · intro i j hij
    rw [load_quests_swap_cells]
    simp only [if_neg hij]

/-- C9 as stated fails: in the sample ship the catalog of cell (0, 0) cannot
be read; the reload still replaces the live matrix (cell (0, 0) now holds
what the failed reader left in the uninitialised local array, cell (0, 1) the
catalog just read) and the live quest map, and the actor is sent "Updated
quests.", not an error report. -/
theorem C9_counterexample :
    (sample_ext 0).LOCAL_GM (sample_actor 1) = true ∧
    (sample_process 1).ship.cfg.quests_dir = some "q" ∧
    ((sample_ext 0).sylverant_quests_read "q/v1-en/quests.xml" 7).1 ≠ 0 ∧
    (sample_process 1).ship.qlist 0 0 = 3 ∧
    (refresh_quests (sample_ext 0) (sample_process 1) (sample_actor 1)
      sample_msgfunc).st.ship.qlist 0 0 = 7 ∧
    (sample_process 1).ship.qlist 0 1 = 3 ∧
    (refresh_quests (sample_ext 0) (sample_process 1) (sample_actor 1)
      sample_msgfunc).st.ship.qlist 0 1 = 50 ∧
    (sample_process 1).ship.qmap = [1, 2] ∧
    (refresh_quests (sample_ext 0) (sample_process 1) (sample_actor 1)
      sample_msgfunc).st.ship.qmap = [1, 10, 11] ∧
    (refresh_quests (sample_ext 0) (sample_process 1) (sample_actor 1)
      sample_msgfunc).trace.getLast? =
      some (event.msgfunc 30 "%s" [fmt_arg.gettext "\tE\tC7Updated quests."]) := by
  refine ⟨by rfl, by rfl, by decide, by rfl, by rfl, by rfl, by rfl, by rfl, by rfl, by rfl⟩

/-- C9 (amended) applied to the sample ship, where the catalog of cell (0, 0)
cannot be read. -/
theorem C9_quest_reload_proceeds_witness :
    (sample_ext 0).LOCAL_GM (sample_actor 1) = true ∧
    (sample_process 1).ship.cfg.quests_dir = some "q" ∧
    ("q" : String) ≠ "" ∧
    (refresh_quests (sample_ext 0) (sample_process 1) (sample_actor 1) sample_msgfunc).ret = 5 ∧
    (refresh_quests (sample_ext 0) (sample_process 1) (sample_actor 1)
      sample_msgfunc).st.ship.qmap = [1, 10, 11] :=
  ⟨by rfl, by rfl, by decide,
   (C9_quest_reload_proceeds (sample_ext 0) (sample_process 1) (sample_actor 1) sample_msgfunc "q"
      (by rfl) (by rfl) (by decide)).1,
   by rfl⟩

/-! ## C11: the shutdown deadline -/

theorem schedule_shutdown_outcome (E : Ext) (p : process) (c : ship_client_t) (when : Nat)
    (restart : Int) (f : msgfunc) (h : E.LOCAL_ROOT c = true) :
    (schedule_shutdown E p c when restart f).ret = 0 ∧
    (schedule_shutdown E p c when restart f).st = { p with restart_on_shutdown := restart } ∧
    (schedule_shutdown E p c when restart f).trace.getLast? =
      some (event.ship_server_shutdown (E.time + ((when * 60) % 4294967296 : Nat))) ∧
    (when * 60 < 4294967296 →
      (schedule_shutdown E p c when restart f).trace.getLast? =
        some (event.ship_server_shutdown (E.time + ((when * 60 : Nat) : Int)))) := by
  simp only [schedule_shutdown, h, Bool.not_true, Bool.false_eq_true, if_false]
  refine ⟨trivial, trivial, List.getLast?_concat _, fun hlt => ?_⟩
  rw [List.getLast?_concat, Nat.mod_eq_of_lt hlt]

/-- C11 fails on the code for large minute counts: `when * 60` is a 32-bit
unsigned product. For the local-root sample actor, `when = 71582789` (a
32-bit value, the smallest that overflows) and `time(NULL) = 1000`, the
operation returns 0 and sets the restart flag to the requested mode, and
every other client is told "71582789 minutes", but the deadline passed to
`ship_server_shutdown` is 1044, where the exact `now + minutes * 60` is
4294968340; one minute less, 71582788, still gives the exact deadline. -/
theorem C11_deadline_wraps :
    (sample_ext 0).LOCAL_ROOT (sample_actor 4) = true ∧
    (71582789 : Nat) < 4294967296 ∧
    (schedule_shutdown (sample_ext 0) (sample_process 4) (sample_actor 4) 71582789 1
      sample_msgfunc).ret = 0 ∧
    (schedule_shutdown (sample_ext 0) (sample_process 4) (sample_actor 4) 71582789 1
      sample_msgfunc).st.restart_on_shutdown = 1 ∧
    (schedule_shutdown (sample_ext 0) (sample_process 4) (sample_actor 4) 71582789 1
      sample_msgfunc).trace.getLast? = some (event.ship_server_shutdown 1044) ∧
    (sample_ext 0).time + ((71582789 * 60 : Nat) : Int) = 4294968340 ∧
    event.send_txt 20 "%s %u %s"
      [fmt_arg.gettext "\tE\tC7Ship is going down for\nrestart in", fmt_arg.u32 71582789,
       fmt_arg.gettext "minutes."] ∈
      (schedule_shutdown (sample_ext 0) (sample_process 4) (sample_actor 4) 71582789 1
        sample_msgfunc).trace ∧
    (schedule_shutdown (sample_ext 0) (sample_process 4) (sample_actor 4) 71582788 1
      sample_msgfunc).trace.getLast? =
      some (event.ship_server_shutdown ((sample_ext 0).time + ((71582788 * 60 : Nat) : Int))) := by
  refine ⟨by rfl, by decide, by rfl, by rfl, by rfl, by rfl, by decide, by rfl⟩

/-! ## The step-by-step functions make the calls of the operations -/

theorem calls_append (xs ys : List step) : calls (xs ++ ys) = calls xs ++ calls ys := by
  induction xs with
  | nil => rfl
  | cons x xs ih =>
    rw [List.cons_append]
    cases x with
    | call e => simp only [calls, ih, List.cons_append]
    | read_guildcard j a => simp only [calls, ih]
    | read_privilege j a => simp only [calls, ih]
    | update_flags j a => simp only [calls, ih]

theorem kill_guildcard_clients_steps_calls (E : Ext) (c : ship_client_t) (gc : Nat)
    (reason : Option String) (j : Nat) (cl : List ship_client_t) :
    calls (kill_guildcard_clients_steps c gc reason j cl).1 =
      (kill_guildcard_clients E c gc reason j cl).trace ∧
    (kill_guildcard_clients_steps c gc reason j cl).2 =
      (kill_guildcard_clients E c gc reason j cl).ret.isSome := by
  induction cl with
  | nil => exact ⟨rfl, rfl⟩
  | cons i rest ih =>
    by_cases hi : i.guildcard = gc
    · by_cases hp : c.privilege ≤ i.privilege
      · simp only [kill_guildcard_clients_steps, kill_guildcard_clients, if_pos hi, if_pos hp]
        exact ⟨rfl, rfl⟩
      · simp only [kill_guildcard_clients_steps, kill_guildcard_clients, if_pos hi, if_neg hp]
        exact ⟨rfl, rfl⟩
    · simp only [kill_guildcard_clients_steps, kill_guildcard_clients, if_neg hi, calls]
      exact ⟨by rw [ih.1], ih.2⟩

theorem kill_guildcard_blocks_steps_calls (E : Ext) (c : ship_client_t) (gc : Nat)
    (reason : Option String) (bs : List (Option block_t)) :
    ∀ j, calls (kill_guildcard_blocks_steps c gc reason j bs).1 =
        (kill_guildcard_blocks E c gc reason j bs).trace ∧
      (kill_guildcard_blocks_steps c gc reason j bs).2 =
        (kill_guildcard_blocks E c gc reason j bs).ret.isSome := by
  induction bs with
  | nil => intro j; exact ⟨rfl, rfl⟩
  | cons b rest ih =>
    intro j
    cases b with
    | none =>
      simp only [kill_guildcard_blocks_steps, kill_guildcard_blocks]
      exact ih (j + 1)
    | some b =>
      by_cases hrun : b.run = true
      · obtain ⟨c1, c2⟩ := kill_guildcard_clients_steps_calls E c gc reason j b.clients
        cases hret : (kill_guildcard_clients E c gc reason j b.clients).ret with
        | some v =>
          rw [hret] at c2
          simp only [kill_guildcard_blocks_steps, kill_guildcard_blocks, if_pos hrun, hret, c2,
            Option.isSome_some, if_true, calls, c1]
          exact ⟨trivial, trivial⟩
        | none =>
          rw [hret] at c2
          simp only [kill_guildcard_blocks_steps, kill_guildcard_blocks, if_pos hrun, hret, c2,
            Option.isSome_none, Bool.false_eq_true, if_false, calls, calls_append, c1,
            (ih (j + 1)).1, (ih (j + 1)).2]
          exact ⟨trivial, trivial⟩
      · simp only [kill_guildcard_blocks_steps, kill_guildcard_blocks, if_neg hrun]
        exact ih (j + 1)

theorem kill_guildcard_steps_calls (E : Ext) (p : process) (c : ship_client_t) (gc : Nat)
    (reason : Option String) :
    calls (kill_guildcard_steps E p c gc reason) = (kill_guildcard E p c gc reason).trace := by
  obtain ⟨b1, b2⟩ := kill_guildcard_blocks_steps_calls E c gc reason p.ship.blocks 0
  cases hgm : E.LOCAL_GM c with
  | false => simp [kill_guildcard_steps, kill_guildcard, hgm, calls]
  | true =>
    cases hret : (kill_guildcard_blocks E c gc reason 0 p.ship.blocks).ret with
    | some v =>
      rw [hret] at b2
      simp [kill_guildcard_steps, kill_guildcard, hgm, hret, b2, b1]
    | none =>
      rw [hret] at b2
      cases hg : E.GLOBAL_GM c <;>
        simp [kill_guildcard_steps, kill_guildcard, hgm, hret, b2, b1, hg, calls_append, calls]

theorem global_ban_clients_steps_calls (E : Ext) (c : ship_client_t) (gc : Nat) (l : Nat)
    (reason : Option String) (j : Nat) (cl : List ship_client_t) :
    calls (global_ban_clients_steps c gc l reason j cl).1 =
      (global_ban_clients E c gc l reason j cl).trace ∧
    (global_ban_clients_steps c gc l reason j cl).2 =
      (global_ban_clients E c gc l reason j cl).ret.isSome := by
  induction cl with
  | nil => exact ⟨rfl, rfl⟩
  | cons i rest ih =>
    by_cases hi : i.guildcard = gc
    · by_cases hp : c.privilege ≤ i.privilege
      · simp only [global_ban_clients_steps, global_ban_clients, if_pos hi, if_pos hp]
        exact ⟨rfl, rfl⟩
      · simp only [global_ban_clients_steps, global_ban_clients, if_pos hi, if_neg hp]
        exact ⟨rfl, rfl⟩
    · simp only [global_ban_clients_steps, global_ban_clients, if_neg hi, calls]
      exact ⟨by rw [ih.1], ih.2⟩

theorem global_ban_blocks_steps_calls (E : Ext) (c : ship_client_t) (gc : Nat) (l : Nat)
    (reason : Option String) (bs : List (Option block_t)) :
    ∀ j, calls (global_ban_blocks_steps c gc l reason j bs).1 =
        (global_ban_blocks E c gc l reason j bs).trace ∧
      (global_ban_blocks_steps c gc l reason j bs).2 =
        (global_ban_blocks E c gc l reason j bs).ret.isSome := by
  induction bs with
  | nil => intro j; exact ⟨rfl, rfl⟩
  | cons b rest ih =>
    intro j
    cases b with
    | none =>
      simp only [global_ban_blocks_steps, global_ban_blocks]
      exact ih (j + 1)
    | some b =>
      by_cases hrun : b.run = true
      · obtain ⟨c1, c2⟩ := global_ban_clients_steps_calls E c gc l reason j b.clients
        cases hret : (global_ban_clients E c gc l reason j b.clients).ret with
        | some v =>
          rw [hret] at c2
          simp only [global_ban_blocks_steps, global_ban_blocks, if_pos hrun, hret, c2,
            Option.isSome_some, if_true, calls, c1]
          exact ⟨trivial, trivial⟩
        | none =>
          rw [hret] at c2
          simp only [global_ban_blocks_steps, global_ban_blocks, if_pos hrun, hret, c2,
            Option.isSome_none, Bool.false_eq_true, if_false, calls, calls_append, c1,
            (ih (j + 1)).1, (ih (j + 1)).2]
          exact ⟨trivial, trivial⟩
      · simp only [global_ban_blocks_steps, global_ban_blocks, if_neg hrun]
        exact ih (j + 1)

theorem global_ban_steps_calls (E : Ext) (p : process) (c : ship_client_t) (gc l : Nat)
    (reason : Option String) :
    calls (global_ban_steps E p c gc l reason) = (global_ban E p c gc l reason).trace := by
  obtain ⟨b1, b2⟩ := global_ban_blocks_steps_calls E c gc l reason p.ship.blocks 0
  cases hgm : E.GLOBAL_GM c with
  | false => simp [global_ban_steps, global_ban, hgm, calls]
  | true =>
    by_cases hban : E.shipgate_send_ban E.SHDR_TYPE_GCBAN c.guildcard gc l reason = 0
    · cases hret : (global_ban_blocks E c gc l reason 0 p.ship.blocks).ret with
      | some v =>
        rw [hret] at b2
        simp [global_ban_steps, global_ban, hgm, hban, hret, b2, b1, calls]
      | none =>
        rw [hret] at b2
        simp [global_ban_steps, global_ban, hgm, hban, hret, b2, b1, calls_append, calls]
    · simp [global_ban_steps, global_ban, hgm, hban, calls]

/-! ## Lock discipline -/

theorem run_steps_append (xs ys : List step) :
    ∀ s, run_steps s (xs ++ ys) = (run_steps s xs).bind (fun s1 => run_steps s1 ys) := by
  induction xs with
  | nil => intro s; rfl
  | cons x xs ih =>
    intro s
    rw [List.cons_append]
    simp only [run_steps]
    cases apply_step s x with
    | none => rfl
    | some s1 => exact ih s1

theorem kill_guildcard_clients_steps_run (c : ship_client_t) (gc : Nat)
    (reason : Option String) (j : Nat) (hs bl : List Nat) (cl : List ship_client_t) :
    run_steps ⟨hs, j :: bl⟩ (kill_guildcard_clients_steps c gc reason j cl).1 =
      some (if (kill_guildcard_clients_steps c gc reason j cl).2 = true then ⟨hs, bl⟩
            else ⟨hs, j :: bl⟩) := by
  induction cl with
  | nil => rfl
  | cons i rest ih =>
    by_cases hi : i.guildcard = gc
    · by_cases hp : c.privilege ≤ i.privilege
      · simp [kill_guildcard_clients_steps, hi, hp, run_steps, apply_step]
      · cases reason <;> simp [kill_guildcard_clients_steps, hi, hp, run_steps, apply_step]
    · simp only [kill_guildcard_clients_steps, if_neg hi]
      simp only [run_steps, apply_step, List.mem_cons, true_or, and_self, if_true,
        List.erase_cons_head]
      exact ih

theorem kill_guildcard_blocks_steps_run (c : ship_client_t) (gc : Nat)
    (reason : Option String) (hs : List Nat) (bs : List (Option block_t)) :
    ∀ j bl, run_steps ⟨hs, bl⟩ (kill_guildcard_blocks_steps c gc reason j bs).1 =
      some ⟨hs, bl⟩ := by
  induction bs with
  | nil => intro j bl; rfl
  | cons b rest ih =>
    intro j bl
    cases b with
    | none =>
      simp only [kill_guildcard_blocks_steps]
      exact ih (j + 1) bl
    | some b =>
      by_cases hrun : b.run = true
      · have hc := kill_guildcard_clients_steps_run c gc reason j hs bl b.clients
        cases h2 : (kill_guildcard_clients_steps c gc reason j b.clients).2 with
        | true =>
          rw [h2] at hc
          simp only [kill_guildcard_blocks_steps, if_pos hrun, h2, if_true, run_steps,
            apply_step]
          simpa using hc
        | false =>
          rw [h2] at hc
          simp only [kill_guildcard_blocks_steps, if_pos hrun, h2, Bool.false_eq_true,
            if_false, run_steps, apply_step, run_steps_append]
          simp only [Bool.false_eq_true, if_false] at hc
          rw [hc]
          simp only [Option.some_bind, run_steps, apply_step, List.erase_cons_head]
          exact ih (j + 1) bl
      · simp only [kill_guildcard_blocks_steps, if_neg hrun]
        exact ih (j + 1) bl

/-- In every execution of `kill_guildcard` the fields of a scanned client are
accessed only under its mutex and the read lock of its block, only held
mutexes are unlocked, and no lock is held when the function returns. -/
theorem kill_guildcard_disciplined (E : Ext) (p : process) (c : ship_client_t) (gc : Nat)
    (reason : Option String) :
    disciplined (kill_guildcard_steps E p c gc reason) = true := by
  have hb := kill_guildcard_blocks_steps_run c gc reason [] p.ship.blocks 0 []
  simp only [disciplined, decide_eq_true_eq, kill_guildcard_steps]
  split_ifs
  · rfl
  · exact hb
  · rw [run_steps_append, hb]
    rfl
  · exact hb

theorem global_ban_blocks_steps_run (c : ship_client_t) (gc : Nat) (l : Nat)
    (reason : Option String) (bs : List (Option block_t)) :
    ∀ j bl, scan_order bs ≠ [] →
      run_steps ⟨[], bl⟩ (global_ban_blocks_steps c gc l reason j bs).1 = none := by
  induction bs with
  | nil => intro j bl h; exact absurd rfl h
  | cons b rest ih =>
    intro j bl h
    cases b with
    | none =>
      simp only [global_ban_blocks_steps]
      exact ih (j + 1) bl (by simpa [scan_order] using h)
    | some b =>
      by_cases hrun : b.run = true
      · cases hcl : b.clients with
        | nil =>
          have hrest : scan_order rest ≠ [] := by simpa [scan_order, hrun, hcl] using h
          simp only [global_ban_blocks_steps, if_pos hrun, hcl, global_ban_clients_steps,
            Bool.false_eq_true, if_false, List.nil_append, run_steps, apply_step,
            List.erase_cons_head]
          exact ih (j + 1) bl hrest
        | cons i more =>
          by_cases hi : i.guildcard = gc
          · by_cases hp : c.privilege ≤ i.privilege
            · simp [global_ban_blocks_steps, hrun, hcl, global_ban_clients_steps, hi, hp,
                run_steps, apply_step]
            · simp [global_ban_blocks_steps, hrun, hcl, global_ban_clients_steps, hi, hp,
                run_steps, apply_step]
          · simp only [global_ban_blocks_steps, if_pos hrun, hcl, global_ban_clients_steps,
              if_neg hi]
            split_ifs <;> simp [run_steps, apply_step]
      · simp only [global_ban_blocks_steps, if_neg hrun]
        exact ih (j + 1) bl (by simpa [scan_order, hrun] using h)

/-- Every execution of `global_ban` that gets to scan a client (global-GM
actor, ban registered, some client in an active block) breaks the lock
discipline: the guildcard of the first scanned client is read before any
client mutex is taken. -/
theorem global_ban_undisciplined (E : Ext) (p : process) (c : ship_client_t) (gc l : Nat)
    (reason : Option String) (hgm : E.GLOBAL_GM c = true)
    (hban : E.shipgate_send_ban E.SHDR_TYPE_GCBAN c.guildcard gc l reason = 0)
    (hscan : scan_order p.ship.blocks ≠ []) :
    disciplined (global_ban_steps E p c gc l reason) = false := by
  have hb := global_ban_blocks_steps_run c gc l reason p.ship.blocks 0 [] hscan
  simp only [disciplined, decide_eq_false_iff_not, global_ban_steps, hgm, hban, Bool.not_true,
    Bool.false_eq_true, if_false, ne_eq, not_true_eq_false, if_true, run_steps, apply_step]
  split_ifs
  · rw [hb]; simp
  · rw [run_steps_append, hb]; simp

/-! ## C12: the two-level lock discipline -/

/-- C12 fails on the code for `global_ban`. In the sample ship a global GM of
privilege 7 bans guildcard 42 (registration succeeds); block 2 is running and
holds the clients at addresses 20 (guildcard 7), 21 and 22 (guildcard 42).
The steps of `global_ban` are listed: the guildcard of client 20 is read
while only the block lock is held, then its mutex, never locked, is
unlocked; the guildcard of client 21 is read before its mutex is taken. The
execution does not keep the discipline, its first offending step being the
read of the guildcard of client 20, and the unlock of client 20 is refused
as well with no client mutex held. The calls among these steps are the calls
of `global_ban`. On the same input `kill_guildcard` keeps the discipline. -/
theorem C12_global_ban_breaks_lock_discipline :
    (sample_ext 0).GLOBAL_GM (sample_actor 7) = true ∧
    (sample_ext 0).shipgate_send_ban 1 9 42 86400 none = 0 ∧
    global_ban_steps (sample_ext 0) (sample_process 7) (sample_actor 7) 42 86400 none =
      [step.call (event.shipgate_send_ban 1 9 42 86400 none),
       step.call (event.rwlock_rdlock 2),
       step.read_guildcard 2 20,
       step.call (event.mutex_unlock 20),
       step.read_guildcard 2 21,
       step.call (event.mutex_lock 21),
       step.read_privilege 2 21,
       step.call (event.send_message_box 21 "%s\n%s %s"
         [fmt_arg.gettext "\tEYou have been banned by a GM.", fmt_arg.gettext "Ban Length:",
          fmt_arg.gettext "1 day"]),
       step.update_flags 2 21,
       step.call (event.mutex_unlock 21),
       step.call (event.rwlock_unlock 2)] ∧
    disciplined
      (global_ban_steps (sample_ext 0) (sample_process 7) (sample_actor 7) 42 86400 none) =
      false ∧
    run_steps ⟨[], []⟩
      [step.call (event.shipgate_send_ban 1 9 42 86400 none),
       step.call (event.rwlock_rdlock 2)] = some ⟨[], [2]⟩ ∧
    apply_step ⟨[], [2]⟩ (step.read_guildcard 2 20) = none ∧
    apply_step ⟨[], [2]⟩ (step.call (event.mutex_unlock 20)) = none ∧
    calls (global_ban_steps (sample_ext 0) (sample_process 7) (sample_actor 7) 42 86400 none) =
      (global_ban (sample_ext 0) (sample_process 7) (sample_actor 7) 42 86400 none).trace ∧
    disciplined
      (kill_guildcard_steps (sample_ext 0) (sample_process 7) (sample_actor 7) 42 none) =
      true := by
  refine ⟨by rfl, by rfl, by rfl, by rfl, by rfl, by rfl, by rfl, by rfl, by rfl⟩

end ShipAdmin
